import Mathlib

/-!
# Team Creation Studio — formal model of the project-state core

A shallow embedding of the project data model, undo/redo history,
validation/repair pass, compositor bitmap resolution and the operation
application service of the `team_creator_studio` package
(`core/models.py`, `core/validation.py`, `core/renderer.py`,
`core/services.py`), with theorems checking the specification's claims.

Conventions of the embedding:
* Python `int` is `Int`, Python `float` (layer opacity) is `Rat`,
  Python `str` is `String`, `None`-able values are `Option`.
* Filesystem effects are abstracted into an `FS` record of pure predicates
  (`pathExists p` models `(project_path / p).exists()`, etc.).
* Methods that mutate `self` become functions `ProjectState → ... → ProjectState`;
  `update_timestamp` is modelled by threading a `now : String` argument.
* JSON dictionaries are modelled by `...Dict` structures whose `Option`
  fields capture presence/absence of a key (a key present with value
  `null` is identified with an absent key, which the migration code
  treats identically).
-/

namespace TCS

/-- `SourceImage` dataclass from `core/models.py`. -/
structure SourceImage where
  id : String
  filename : String
  original_path : String
  imported_at : String
deriving DecidableEq, Repr

/-- `Layer` dataclass from `core/models.py`. -/
structure Layer where
  id : String
  name : String
  type : String
  source_image_id : Option String
  layer_path : String
  visible : Bool
  opacity : Rat
  blend_mode : String
  order : Int
  x : Int
  y : Int
deriving DecidableEq, Repr

/-- `OperationRecord` dataclass from `core/models.py`. -/
structure OperationRecord where
  id : String
  op_type : String
  params : List (String × String)
  created_at : String
  input_layer_id : String
  output_path : String
  output_layer_path : Option String
  note : Option String
deriving DecidableEq, Repr

/-- `ProjectState` dataclass from `core/models.py`. -/
structure ProjectState where
  team_name : String
  team_slug : String
  project_name : String
  project_slug : String
  created_at : String
  updated_at : String
  source_images : List SourceImage
  layers : List Layer
  operations : List OperationRecord
  active_composite_path : Option String
  active_op_index : Int
  canvas_width : Int
  canvas_height : Int
  canvas_background : String
  canvas_dpi : Option Int
deriving DecidableEq, Repr

/-- Pairs each list element with its position, starting at `k`
(models Python's `enumerate`). -/
def idxFrom (k : Nat) : List α → List (Nat × α)
  | [] => []
  | a :: as => (k, a) :: idxFrom (k + 1) as

namespace ProjectState

/-- Python slice `l[:k]` for a possibly negative `k`: a nonnegative stop
takes the first `k` elements, a negative stop counts from the end. -/
def pySliceStop (l : List α) (k : Int) : List α :=
  if k < 0 then l.take ((l.length : Int) + k).toNat else l.take k.toNat

/-- `ProjectState.add_operation`: truncate the redo branch when the cursor
is rewound, append, move the cursor to the new last operation. -/
def add_operation (now : String) (s : ProjectState) (op : OperationRecord) : ProjectState :=
  let ops :=
    if s.active_op_index < (s.operations.length : Int) - 1 then
      pySliceStop s.operations (s.active_op_index + 1)
    else s.operations
  let ops := ops ++ [op]
  { s with operations := ops,
           active_op_index := (ops.length : Int) - 1,
           updated_at := now }

/-- `ProjectState.can_undo`. -/
def can_undo (s : ProjectState) : Bool := 0 ≤ s.active_op_index

/-- `ProjectState.can_redo`. -/
def can_redo (s : ProjectState) : Bool := s.active_op_index < (s.operations.length : Int) - 1

/-- `ProjectState.undo`: move the cursor back one step if possible. -/
def undo (now : String) (s : ProjectState) : Bool × ProjectState :=
  if s.can_undo then
    (true, { s with active_op_index := s.active_op_index - 1, updated_at := now })
  else (false, s)

/-- `ProjectState.redo`: move the cursor forward one step if possible. -/
def redo (now : String) (s : ProjectState) : Bool × ProjectState :=
  if s.can_redo then
    (true, { s with active_op_index := s.active_op_index + 1, updated_at := now })
  else (false, s)

/-- `ProjectState.delete_operation`: bounds-checked removal of one history
entry with cursor adjustment; the Python method raises `IndexError` on an
out-of-range index before touching the list. -/
def delete_operation (now : String) (i : Int) (s : ProjectState) :
    Except String (OperationRecord × ProjectState) :=
  if h : i < 0 ∨ (s.operations.length : Int) ≤ i then
    .error ("Operation index " ++ toString i ++ " out of range")
  else
    have hj : i.toNat < s.operations.length := by omega
    let deleted := s.operations.get ⟨i.toNat, hj⟩
    let ops := s.operations.eraseIdx i.toNat
    let active :=
      if i < s.active_op_index then s.active_op_index - 1
      else if i = s.active_op_index then i - 1
      else s.active_op_index
    .ok (deleted, { s with operations := ops, active_op_index := active, updated_at := now })

/-- `ProjectState.get_layer_by_id` together with the list position of the
first layer carrying the id (the position stands in for Python's object
identity when the found layer is later mutated in place). -/
def findLayer (layers : List Layer) (layer_id : String) : Option (Nat × Layer) :=
  (idxFrom 0 layers).find? (fun p => p.2.id = layer_id)

/-- In-place update of the layer at one list position. -/
def updateLayerAt (f : Layer → Layer) : Nat → List Layer → List Layer
  | _, [] => []
  | 0, l :: ls => f l :: ls
  | n + 1, l :: ls => l :: updateLayerAt f n ls

/-- `ProjectState.set_layer_visibility`. -/
def set_layer_visibility (now : String) (layer_id : String) (v : Bool)
    (s : ProjectState) : Bool × ProjectState :=
  match findLayer s.layers layer_id with
  | none => (false, s)
  | some (j, _) =>
      (true, { s with layers := updateLayerAt (fun l => { l with visible := v }) j s.layers,
                      updated_at := now })

/-- `ProjectState.set_layer_opacity` (clamps to `[0, 1]`). -/
def set_layer_opacity (now : String) (layer_id : String) (v : Rat)
    (s : ProjectState) : Bool × ProjectState :=
  match findLayer s.layers layer_id with
  | none => (false, s)
  | some (j, _) =>
      let f := fun l => { l with opacity := max 0 (min 1 v) }
      (true, { s with layers := updateLayerAt f j s.layers, updated_at := now })

/-- `ProjectState.set_layer_position`. -/
def set_layer_position (now : String) (layer_id : String) (px py : Int)
    (s : ProjectState) : Bool × ProjectState :=
  match findLayer s.layers layer_id with
  | none => (false, s)
  | some (j, _) =>
      (true, { s with layers := updateLayerAt (fun l => { l with x := px, y := py }) j s.layers,
                      updated_at := now })

/-- `ProjectState.rename_layer`. -/
def rename_layer (now : String) (layer_id : String) (nm : String)
    (s : ProjectState) : Bool × ProjectState :=
  match findLayer s.layers layer_id with
  | none => (false, s)
  | some (j, _) =>
      (true, { s with layers := updateLayerAt (fun l => { l with name := nm }) j s.layers,
                      updated_at := now })

/-- `ProjectState.delete_layer`. -/
def delete_layer (now : String) (layer_id : String)
    (s : ProjectState) : Option Layer × ProjectState :=
  match findLayer s.layers layer_id with
  | none => (none, s)
  | some (j, l) =>
      (some l, { s with layers := s.layers.eraseIdx j, updated_at := now })

/-- Stable comparison used by `get_sorted_layers` on position-tagged
layers (Python's `sorted` is stable, as is `List.insertionSort`). -/
def idxOrderLe (a b : Nat × Layer) : Prop := a.2.order ≤ b.2.order

instance : DecidableRel idxOrderLe :=
  fun a b => inferInstanceAs (Decidable (a.2.order ≤ b.2.order))

/-- `ProjectState.get_sorted_layers` on position-tagged layers: the sorted
sequence of `(original position, layer)` pairs, ascending by `order`. -/
def sortedIndexedLayers (s : ProjectState) : List (Nat × Layer) :=
  List.insertionSort idxOrderLe (idxFrom 0 s.layers)

/-- `ProjectState.get_sorted_layers`. -/
def get_sorted_layers (s : ProjectState) : List Layer :=
  List.insertionSort (fun a b : Layer => a.order ≤ b.order) s.layers

/-- First position in a sorted `(original position, layer)` sequence whose
layer carries the id (`next((i for i, l in enumerate(sorted_layers) if l.id == layer_id), None)`). -/
def firstSortedPos (sorted : List (Nat × Layer)) (layer_id : String) : Option Nat :=
  ((idxFrom 0 sorted).find? (fun p => p.2.2.id = layer_id)).map (fun p => p.1)

/-- `ProjectState.move_layer_up`: swap `order` with the next layer in the
order-sorted sequence. The two in-place field assignments are modelled by
positions; when they alias the same object the second assignment wins,
as in Python's sequential tuple unpacking. -/
def move_layer_up (now : String) (layer_id : String) (s : ProjectState) :
    Bool × ProjectState :=
  match findLayer s.layers layer_id with
  | none => (false, s)
  | some (j, layer) =>
      let sorted := s.sortedIndexedLayers
      match firstSortedPos sorted layer_id with
      | none => (false, s)
      | some cp =>
          if cp = sorted.length - 1 then (false, s)
          else
            match sorted.get? (cp + 1) with
            | none => (false, s)
            | some nxt =>
                let layers := (idxFrom 0 s.layers).map (fun p =>
                  if p.1 = nxt.1 then { p.2 with order := layer.order }
                  else if p.1 = j then { p.2 with order := nxt.2.order }
                  else p.2)
                (true, { s with layers := layers, updated_at := now })

/-- `ProjectState.move_layer_down`: swap `order` with the previous layer in
the order-sorted sequence. -/
def move_layer_down (now : String) (layer_id : String) (s : ProjectState) :
    Bool × ProjectState :=
  match findLayer s.layers layer_id with
  | none => (false, s)
  | some (j, layer) =>
      let sorted := s.sortedIndexedLayers
      match firstSortedPos sorted layer_id with
      | none => (false, s)
      | some cp =>
          if cp = 0 then (false, s)
          else
            match sorted.get? (cp - 1) with
            | none => (false, s)
            | some prev =>
                let layers := (idxFrom 0 s.layers).map (fun p =>
                  if p.1 = prev.1 then { p.2 with order := layer.order }
                  else if p.1 = j then { p.2 with order := prev.2.order }
                  else p.2)
                (true, { s with layers := layers, updated_at := now })

/-- `ProjectState.get_visible_layer_count`. -/
def get_visible_layer_count (s : ProjectState) : Nat :=
  (s.layers.filter (fun l => l.visible)).length

end ProjectState

/-! ## Serialization (`to_dict` / `from_dict`)

The JSON dictionary for each dataclass is a structure whose `Option`
fields record whether the corresponding key is present. `to_dict`
always emits every key; `from_dict` supplies migration defaults for
keys introduced after the original schema. -/

/-- JSON shape of a serialized `Layer` (`order`/`x`/`y`/`opacity`/`visible`
may be absent in old documents). -/
structure LayerDict where
  id : String
  name : String
  type : String
  source_image_id : Option String
  layer_path : String
  visible : Option Bool
  opacity : Option Rat
  blend_mode : String
  order : Option Int
  x : Option Int
  y : Option Int
deriving DecidableEq, Repr

/-- `Layer.to_dict`. -/
def Layer.to_dict (l : Layer) : LayerDict :=
  { id := l.id, name := l.name, type := l.type, source_image_id := l.source_image_id,
    layer_path := l.layer_path, visible := some l.visible, opacity := some l.opacity,
    blend_mode := l.blend_mode, order := some l.order, x := some l.x, y := some l.y }

/-- `Layer.from_dict` with its migration defaults. -/
def Layer.from_dict (d : LayerDict) : Layer :=
  { id := d.id, name := d.name, type := d.type, source_image_id := d.source_image_id,
    layer_path := d.layer_path, visible := d.visible.getD true,
    opacity := d.opacity.getD 1, blend_mode := d.blend_mode,
    order := d.order.getD 0, x := d.x.getD 0, y := d.y.getD 0 }

/-- JSON shape of a serialized `OperationRecord`; a missing
`output_layer_path`/`note` key and a `null` value are identified, as
`OperationRecord.from_dict` maps both to `None`. -/
structure OperationDict where
  id : String
  op_type : String
  params : List (String × String)
  created_at : String
  input_layer_id : String
  output_path : String
  output_layer_path : Option String
  note : Option String
deriving DecidableEq, Repr

/-- `OperationRecord.to_dict`. -/
def OperationRecord.to_dict (op : OperationRecord) : OperationDict :=
  { id := op.id, op_type := op.op_type, params := op.params, created_at := op.created_at,
    input_layer_id := op.input_layer_id, output_path := op.output_path,
    output_layer_path := op.output_layer_path, note := op.note }

/-- `OperationRecord.from_dict`. -/
def OperationRecord.from_dict (d : OperationDict) : OperationRecord :=
  { id := d.id, op_type := d.op_type, params := d.params, created_at := d.created_at,
    input_layer_id := d.input_layer_id, output_path := d.output_path,
    output_layer_path := d.output_layer_path, note := d.note }

/-- JSON shape of a serialized `ProjectState`. -/
structure ProjectDict where
  team_name : String
  team_slug : String
  project_name : String
  project_slug : String
  created_at : String
  updated_at : String
  source_images : List SourceImage
  layers : List LayerDict
  operations : List OperationDict
  active_composite_path : Option String
  active_op_index : Option Int
  canvas_width : Option Int
  canvas_height : Option Int
  canvas_background : Option String
  canvas_dpi : Option Int
deriving DecidableEq, Repr

/-- `ProjectState.to_dict`. -/
def ProjectState.to_dict (s : ProjectState) : ProjectDict :=
  { team_name := s.team_name, team_slug := s.team_slug,
    project_name := s.project_name, project_slug := s.project_slug,
    created_at := s.created_at, updated_at := s.updated_at,
    source_images := s.source_images,
    layers := s.layers.map Layer.to_dict,
    operations := s.operations.map OperationRecord.to_dict,
    active_composite_path := s.active_composite_path,
    active_op_index := some s.active_op_index,
    canvas_width := some s.canvas_width, canvas_height := some s.canvas_height,
    canvas_background := some s.canvas_background, canvas_dpi := s.canvas_dpi }

/-- The layer-order migration loop in `ProjectState.from_dict`: a layer at
positive position whose `order` is `0` is assumed to come from the old
all-zero format and receives its list position as `order`. -/
def migrateLayerOrders : Nat → List Layer → List Layer
  | _, [] => []
  | i, l :: ls =>
      (if l.order = 0 ∧ 0 < i then { l with order := (i : Int) } else l)
        :: migrateLayerOrders (i + 1) ls

/-- `ProjectState.from_dict` with its migration rules (missing
`active_op_index` inferred from the operation count, missing canvas
dimensions defaulted, layer orders migrated). -/
def ProjectState.from_dict (d : ProjectDict) : ProjectState :=
  let operations := d.operations.map OperationRecord.from_dict
  let layers0 := d.layers.map Layer.from_dict
  let active_op_index :=
    match d.active_op_index with
    | none => if operations.isEmpty then -1 else (operations.length : Int) - 1
    | some a => a
  let canvas :=
    if d.canvas_width.isNone ∨ d.canvas_height.isNone then ((1024 : Int), (1024 : Int))
    else (d.canvas_width.getD 1024, d.canvas_height.getD 1024)
  let layers := migrateLayerOrders 0 layers0
  { team_name := d.team_name, team_slug := d.team_slug,
    project_name := d.project_name, project_slug := d.project_slug,
    created_at := d.created_at, updated_at := d.updated_at,
    source_images := d.source_images,
    layers := layers, operations := operations,
    active_composite_path := d.active_composite_path,
    active_op_index := active_op_index,
    canvas_width := canvas.1, canvas_height := canvas.2,
    canvas_background := d.canvas_background.getD "transparent",
    canvas_dpi := d.canvas_dpi }

/-! ## Round-trip of serialization (claim C1) -/

theorem layer_from_dict_to_dict (l : Layer) : Layer.from_dict l.to_dict = l := rfl

theorem operation_from_dict_to_dict (op : OperationRecord) :
    OperationRecord.from_dict op.to_dict = op := rfl

theorem layers_from_dict_to_dict (ls : List Layer) :
    (ls.map Layer.to_dict).map Layer.from_dict = ls := by
  induction ls with
  | nil => rfl
  | cons l ls ih => simp [ih, layer_from_dict_to_dict]

theorem operations_from_dict_to_dict (ops : List OperationRecord) :
    (ops.map OperationRecord.to_dict).map OperationRecord.from_dict = ops := by
  induction ops with
  | nil => rfl
  | cons op ops ih => simp [ih, operation_from_dict_to_dict]

theorem migrateLayerOrders_eq_self (ls : List Layer) (k : Nat)
    (h : ∀ q ∈ idxFrom k ls, 0 < q.1 → q.2.order ≠ 0) :
    migrateLayerOrders k ls = ls := by
  induction ls generalizing k with
  | nil => rfl
  | cons l ls ih =>
      have hl : ¬(l.order = 0 ∧ 0 < k) := by
        rintro ⟨h0, hk⟩
        exact h (k, l) (by simp [idxFrom]) hk h0
      simp only [migrateLayerOrders, if_neg hl]
      congr 1
      exact ih (k + 1) (fun q hq => h q (List.mem_cons_of_mem _ hq))

/-- A sample layer used by concrete counterexamples and witnesses. -/
def sampleLayer (lid : String) (ord : Int) : Layer :=
  { id := lid, name := "layer " ++ lid, type := "raster", source_image_id := none,
    layer_path := "working/" ++ lid ++ ".png", visible := true, opacity := 1,
    blend_mode := "normal", order := ord, x := 0, y := 0 }

/-- A sample operation record used by concrete counterexamples and witnesses. -/
def sampleOp (oid : String) (layerId : String) (out : String)
    (outLayer : Option String) : OperationRecord :=
  { id := oid, op_type := "color_replace", params := [], created_at := "2024-01-01T00:00:00Z",
    input_layer_id := layerId, output_path := out, output_layer_path := outLayer,
    note := none }

/-- A sample project used by concrete counterexamples and witnesses. -/
def sampleState (layers : List Layer) (ops : List OperationRecord)
    (active : Int) : ProjectState :=
  { team_name := "Team", team_slug := "team", project_name := "Proj", project_slug := "proj",
    created_at := "2024-01-01T00:00:00Z", updated_at := "2024-01-02T00:00:00Z",
    source_images := [], layers := layers, operations := ops,
    active_composite_path := none, active_op_index := active,
    canvas_width := 1024, canvas_height := 1024,
    canvas_background := "transparent", canvas_dpi := none }

/-- C1 counterexample state: two layers and the second one has `order = 0`,
which the `from_dict` migration loop rewrites to `1`. -/
def c1State : ProjectState :=
  sampleState [sampleLayer "L0" 5, sampleLayer "L1" 0] [] (-1)

/-- C1 is false as stated: serializing and re-parsing a project whose
second layer has `order = 0` changes that layer's `order` to `1` (the
`from_dict` migration loop assumes position-`i > 0` layers with `order = 0`
come from the legacy all-zero format), so `from_dict(to_dict(p))` does not
reproduce `p` field-for-field even ignoring `updated_at`. -/
theorem c1_roundtrip_counterexample :
    ProjectState.from_dict (ProjectState.to_dict c1State) ≠ c1State ∧
    ((ProjectState.from_dict (ProjectState.to_dict c1State)).layers.map Layer.order
       = [5, 1] ∧ c1State.layers.map Layer.order = [5, 0]) := by
  refine ⟨?_, by decide, by decide⟩
  intro h
  have := congrArg (fun s => s.layers.map Layer.order) h
  revert this
  decide

/-- C1 amended: `from_dict (to_dict p)` reproduces `p` field-for-field
(including `updated_at`, which `from_dict` copies verbatim) for every
project in which no layer at a positive list position has `order = 0` —
the only disturbance is the legacy layer-order migration loop. -/
theorem c1_roundtrip_amended (p : ProjectState)
    (h : ∀ q ∈ idxFrom 0 p.layers, 0 < q.1 → q.2.order ≠ 0) :
    ProjectState.from_dict (ProjectState.to_dict p) = p := by
  cases p with
  | mk tn ts pn ps ca ua si ls ops acp aoi cw ch cb cd =>
      simp only [ProjectState.to_dict, ProjectState.from_dict,
        layers_from_dict_to_dict, operations_from_dict_to_dict,
        Option.isNone_some, Option.getD_some]
      rw [migrateLayerOrders_eq_self ls 0 (by simpa using h)]
      simp

/-- Witness for the amended C1 at a concrete project with nonzero orders
on all layers past the first. -/
theorem c1_roundtrip_amended_witness :
    ProjectState.from_dict
      (ProjectState.to_dict (sampleState [sampleLayer "L0" 0, sampleLayer "L1" 3] [] (-1)))
      = sampleState [sampleLayer "L0" 0, sampleLayer "L1" 3] [] (-1) :=
  c1_roundtrip_amended _ (by decide)

/-! ## Operation lookup by id or id prefix (claim C5) -/

/-- The match test of `ProjectState.get_operation_by_id`:
`op.id == op_id or op.id.startswith(op_id)`; `startswith` is modelled as
a character-list prefix test. -/
def opIdMatches (q : String) (op : OperationRecord) : Bool :=
  op.id == q || q.data.isPrefixOf op.id.data

/-- Result of `ProjectState.get_operation_by_id`: `None`, an
`(index, operation)` pair, or the `ValueError` carrying the queried
prefix and the number of matches. -/
inductive OpLookup where
  | notFound : OpLookup
  | found (i : Nat) (op : OperationRecord) : OpLookup
  | ambiguous (q : String) (n : Nat) : OpLookup
deriving DecidableEq, Repr

/-- `ProjectState.get_operation_by_id`. -/
def ProjectState.get_operation_by_id (s : ProjectState) (q : String) : OpLookup :=
  match (idxFrom 0 s.operations).filter (fun p => opIdMatches q p.2) with
  | [] => .notFound
  | [m] => .found m.1 m.2
  | ms => .ambiguous q ms.length

theorem idxFrom_get? (l : List α) (k j : Nat) :
    (idxFrom k l).get? j = (l.get? j).map (fun a => (k + j, a)) := by
  induction l generalizing k j with
  | nil => simp [idxFrom]
  | cons a as ih =>
      cases j with
      | zero => simp [idxFrom]
      | succ j => simpa [idxFrom, Nat.add_assoc, Nat.add_comm 1 j] using ih (k + 1) j

theorem mem_idxFrom_spec {q : Nat × α} {l : List α} {k : Nat} (h : q ∈ idxFrom k l) :
    k ≤ q.1 ∧ l.get? (q.1 - k) = some q.2 := by
  induction l generalizing k with
  | nil => simp [idxFrom] at h
  | cons a as ih =>
      simp only [idxFrom, List.mem_cons] at h
      rcases h with h | h
      · subst h; simp
      · obtain ⟨hk, hget⟩ := ih h
        refine ⟨by omega, ?_⟩
        have : q.1 - k = (q.1 - (k + 1)) + 1 := by omega
        rw [this]
        simpa using hget

theorem get?_mem_idxFrom {l : List α} {j : Nat} {a : α} (h : l.get? j = some a) (k : Nat) :
    (k + j, a) ∈ idxFrom k l := by
  have := idxFrom_get? l k j
  rw [h] at this
  exact List.get?_mem this

theorem pairwise_idxFrom (l : List α) (k : Nat) :
    List.Pairwise (fun p q : Nat × α => p.1 < q.1) (idxFrom k l) := by
  induction l generalizing k with
  | nil => simp [idxFrom]
  | cons a as ih =>
      refine List.Pairwise.cons (fun q hq => ?_) (ih (k + 1))
      have := (mem_idxFrom_spec hq).1
      simpa using this

/-- C5 counterexample: with operation ids `"abc"` and `"abcd"`, the query
`"abc"` has an exact-id match, yet `get_operation_by_id` raises the
ambiguity error instead of returning it: the method never prioritizes an
exact match over other prefix matches. -/
theorem c5_exact_match_counterexample :
    (sampleState [] [sampleOp "abc" "L" "a.png" none, sampleOp "abcd" "L" "b.png" none]
        1).operations.head?.map OperationRecord.id = some "abc" ∧
    (sampleState [] [sampleOp "abc" "L" "a.png" none, sampleOp "abcd" "L" "b.png" none]
        1).get_operation_by_id "abc" = .ambiguous "abc" 2 := by
  constructor <;> decide

/-- C5 amended: `get_operation_by_id` treats the query purely as an id
prefix (an exact id match counts as a prefix match but receives no
priority): it returns not-found when no operation id extends the query,
the unique `(index, operation)` pair when exactly one does, and signals
the ambiguity error whenever two or more do — even if one of them is an
exact match. -/
theorem c5_get_operation_by_id_amended (s : ProjectState) (q : String) :
    (s.get_operation_by_id q = .notFound ↔ ∀ op ∈ s.operations, opIdMatches q op = false) ∧
    (∀ i op, s.get_operation_by_id q = .found i op →
       s.operations.get? i = some op ∧ opIdMatches q op = true ∧
       ∀ j op', s.operations.get? j = some op' → opIdMatches q op' = true → j = i ∧ op' = op) ∧
    (∀ q' n, s.get_operation_by_id q = .ambiguous q' n →
       q' = q ∧ 2 ≤ n ∧
       ∃ i j opi opj, i ≠ j ∧
         s.operations.get? i = some opi ∧ opIdMatches q opi = true ∧
         s.operations.get? j = some opj ∧ opIdMatches q opj = true) := by
  classical
  rcases hM : (idxFrom 0 s.operations).filter (fun p => opIdMatches q p.2) with
    _ | ⟨m, _ | ⟨m2, t⟩⟩
  · refine ⟨⟨fun _ => ?_, fun _ => ?_⟩, fun i op hf => ?_, fun q' n ha => ?_⟩
    · intro op hop
      obtain ⟨j, hj⟩ := List.mem_iff_get?.mp hop
      by_contra hmatch
      have hmem : (0 + j, op) ∈ idxFrom 0 s.operations := get?_mem_idxFrom hj 0
      have : (0 + j, op) ∈ (idxFrom 0 s.operations).filter (fun p => opIdMatches q p.2) :=
        List.mem_filter.mpr ⟨hmem, by simpa using Bool.of_not_eq_false hmatch⟩
      rw [hM] at this
      simp at this
    · simp [ProjectState.get_operation_by_id, hM]
    · simp [ProjectState.get_operation_by_id, hM] at hf
    · simp [ProjectState.get_operation_by_id, hM] at ha
  · have hmem : m ∈ (idxFrom 0 s.operations).filter (fun p => opIdMatches q p.2) := by
      rw [hM]; exact List.mem_singleton.mpr rfl
    have hidx := List.mem_filter.mp hmem
    have hspec := mem_idxFrom_spec hidx.1
    refine ⟨⟨fun h => ?_, fun h => ?_⟩, fun i op hf => ?_, fun q' n ha => ?_⟩
    · simp [ProjectState.get_operation_by_id, hM] at h
    · exact absurd (h m.2 (List.get?_mem (by simpa using hspec.2))) (by simpa using hidx.2)
    · have : OpLookup.found m.1 m.2 = OpLookup.found i op := by
        simpa [ProjectState.get_operation_by_id, hM] using hf
      obtain ⟨hi, hop⟩ : m.1 = i ∧ m.2 = op := by
        injection this with h1 h2
        exact ⟨h1, h2⟩
      subst hi; subst hop
      refine ⟨by simpa using hspec.2, hidx.2, fun j op' hj hmatch => ?_⟩
      have hmem' : (0 + j, op') ∈ (idxFrom 0 s.operations).filter
          (fun p => opIdMatches q p.2) :=
        List.mem_filter.mpr ⟨get?_mem_idxFrom hj 0, by simpa using hmatch⟩
      rw [hM] at hmem'
      have := List.mem_singleton.mp hmem'
      constructor
      · simpa using congrArg Prod.fst this
      · simpa using congrArg Prod.snd this
    · simp [ProjectState.get_operation_by_id, hM] at ha
  · have hpair : List.Pairwise (fun p q : Nat × OperationRecord => p.1 < q.1)
        (m :: m2 :: t) := by
      rw [← hM]
      exact (pairwise_idxFrom s.operations 0).filter _
    have hm : m ∈ (idxFrom 0 s.operations).filter (fun p => opIdMatches q p.2) := by
      rw [hM]; simp
    have hm2 : m2 ∈ (idxFrom 0 s.operations).filter (fun p => opIdMatches q p.2) := by
      rw [hM]; simp
    have hmf := List.mem_filter.mp hm
    have hm2f := List.mem_filter.mp hm2
    have hmspec := mem_idxFrom_spec hmf.1
    have hm2spec := mem_idxFrom_spec hm2f.1
    have hlt : m.1 < m2.1 := by
      have := List.rel_of_pairwise_cons hpair (List.mem_cons_self m2 t)
      exact this
    refine ⟨⟨fun h => ?_, fun h => ?_⟩, fun i op hf => ?_, fun q' n ha => ?_⟩
    · simp [ProjectState.get_operation_by_id, hM] at h
    · exact absurd (h m.2 (List.get?_mem (by simpa using hmspec.2))) (by simpa using hmf.2)
    · simp [ProjectState.get_operation_by_id, hM] at hf
    · have : q = q' ∧ (m :: m2 :: t).length = n := by
        simpa [ProjectState.get_operation_by_id, hM] using ha
      refine ⟨this.1.symm, by simpa using this.2 ▸ by simp, ?_⟩
      exact ⟨m.1, m2.1, m.2, m2.2, by omega,
        by simpa using hmspec.2, by simpa using hmf.2,
        by simpa using hm2spec.2, by simpa using hm2f.2⟩

/-- Witness for the amended C5, exercising the unique-prefix branch on the
spec's own example: `"abc1"` uniquely identifies the first operation. -/
theorem c5_get_operation_by_id_amended_witness :
    (sampleState [] [sampleOp "abc123" "L" "a.png" none, sampleOp "abc456" "L" "b.png" none]
        1).get_operation_by_id "abc1" = .found 0 (sampleOp "abc123" "L" "a.png" none) ∧
    (sampleState [] [sampleOp "abc123" "L" "a.png" none, sampleOp "abc456" "L" "b.png" none]
        1).operations.get? 0 = some (sampleOp "abc123" "L" "a.png" none) := by
  have h := (c5_get_operation_by_id_amended
    (sampleState [] [sampleOp "abc123" "L" "a.png" none, sampleOp "abc456" "L" "b.png" none] 1)
    "abc1").2.1 0 (sampleOp "abc123" "L" "a.png" none) (by decide)
  exact ⟨by decide, h.1⟩

/-! ## History mutation: `add_operation` (C6), `delete_operation` (C7) -/

/-- C6 counterexample. With `active_op_index = -2` (an out-of-range cursor
the dataclass admits), `operations[:active_op_index + 1]` is the Python
slice `ops[:-1]`, which keeps all but the last element — not the claimed
"prefix of length `active_op_index + 1`" (an empty prefix, negative
lengths having no larger reading). -/
theorem c6_add_operation_counterexample :
    (ProjectState.add_operation "t"
        (sampleState [] [sampleOp "o1" "L" "p1" none, sampleOp "o2" "L" "p2" none,
          sampleOp "o3" "L" "p3" none] (-2)) (sampleOp "x" "L" "px" none)).operations
      = [sampleOp "o1" "L" "p1" none, sampleOp "o2" "L" "p2" none, sampleOp "x" "L" "px" none]
    ∧ (ProjectState.add_operation "t"
        (sampleState [] [sampleOp "o1" "L" "p1" none, sampleOp "o2" "L" "p2" none,
          sampleOp "o3" "L" "p3" none] (-2)) (sampleOp "x" "L" "px" none)).operations
      ≠ (sampleState [] [sampleOp "o1" "L" "p1" none, sampleOp "o2" "L" "p2" none,
          sampleOp "o3" "L" "p3" none] (-2)).operations.take
          ((sampleState [] [sampleOp "o1" "L" "p1" none, sampleOp "o2" "L" "p2" none,
            sampleOp "o3" "L" "p3" none] (-2)).active_op_index + 1).toNat
          ++ [sampleOp "x" "L" "px" none] := by
  constructor <;> decide

/-- C6 amended: for every cursor in the valid range `active_op_index ≥ -1`,
`add_operation` truncates the history to the prefix of length
`active_op_index + 1` (for an up-to-date cursor this keeps everything),
appends the new record and puts the cursor on it; and after a successful
`undo` followed by `add_operation x`, the surviving history is the prefix
of length equal to the pre-undo active index followed by `x`, so every
operation after the pre-undo active index is gone and `x` is the final
operation with the cursor on it. For `active_op_index < -1` Python's
negative slicing keeps a suffix-trimmed list instead (see the
counterexample). -/
theorem c6_add_operation_amended (s : ProjectState) (op : OperationRecord)
    (now now' : String) :
    (-1 ≤ s.active_op_index →
       (ProjectState.add_operation now s op).operations
           = s.operations.take (s.active_op_index + 1).toNat ++ [op] ∧
       (ProjectState.add_operation now s op).active_op_index
           = ((ProjectState.add_operation now s op).operations.length : Int) - 1) ∧
    (0 ≤ s.active_op_index →
       (ProjectState.add_operation now' (s.undo now).2 op).operations
           = s.operations.take s.active_op_index.toNat ++ [op] ∧
       (ProjectState.add_operation now' (s.undo now).2 op).active_op_index
           = ((ProjectState.add_operation now' (s.undo now).2 op).operations.length : Int)
               - 1) := by
  have key : ∀ (t : ProjectState) (nw : String), -1 ≤ t.active_op_index →
      (ProjectState.add_operation nw t op).operations
        = t.operations.take (t.active_op_index + 1).toNat ++ [op] ∧
      (ProjectState.add_operation nw t op).active_op_index
        = ((ProjectState.add_operation nw t op).operations.length : Int) - 1 := by
    intro t nw ht
    by_cases hc : t.active_op_index < (t.operations.length : Int) - 1
    · constructor
      · simp only [ProjectState.add_operation, if_pos hc, ProjectState.pySliceStop,
          if_neg (show ¬ t.active_op_index + 1 < 0 by omega)]
      · simp [ProjectState.add_operation]
    · constructor
      · simp only [ProjectState.add_operation, if_neg hc]
        rw [List.take_of_length_le (by omega)]
      · simp [ProjectState.add_operation]
  constructor
  · intro h
    exact key s now h
  · intro h
    have hu : (s.undo now).2
        = { s with active_op_index := s.active_op_index - 1, updated_at := now } := by
      simp only [ProjectState.undo, ProjectState.can_undo]
      rw [if_pos (by simpa using h)]
    have ht : -1 ≤ ((s.undo now).2).active_op_index := by
      rw [hu]
      show -1 ≤ s.active_op_index - 1
      omega
    have h2 := key _ now' ht
    rw [hu] at h2
    have e : s.active_op_index - 1 + 1 = s.active_op_index := by omega
    constructor
    · rw [hu, h2.1]
      show s.operations.take (s.active_op_index - 1 + 1).toNat ++ [op]
        = s.operations.take s.active_op_index.toNat ++ [op]
      rw [e]
    · rw [hu]
      exact h2.2

/-- Witness for the amended C6: four operations, cursor on the last;
`undo` then `add_operation x` discards the pre-undo active operation and
everything after it and leaves `x` as the final operation. -/
theorem c6_add_operation_amended_witness :
    (ProjectState.add_operation "t2"
        ((sampleState [] [sampleOp "o1" "L" "p1" none, sampleOp "o2" "L" "p2" none,
            sampleOp "o3" "L" "p3" none, sampleOp "o4" "L" "p4" none] 3).undo "t1").2
        (sampleOp "x" "L" "px" none)).operations
      = [sampleOp "o1" "L" "p1" none, sampleOp "o2" "L" "p2" none,
         sampleOp "o3" "L" "p3" none, sampleOp "x" "L" "px" none] := by
  have h := (c6_add_operation_amended
    (sampleState [] [sampleOp "o1" "L" "p1" none, sampleOp "o2" "L" "p2" none,
      sampleOp "o3" "L" "p3" none, sampleOp "o4" "L" "p4" none] 3)
    (sampleOp "x" "L" "px" none) "t1" "t2").2 (by decide)
  rw [h.1]
  decide

theorem eraseIdx_get?_lt (l : List α) (i j : Nat) (h : j < i) :
    (l.eraseIdx i).get? j = l.get? j := by
  induction l generalizing i j with
  | nil => simp [List.eraseIdx]
  | cons a as ih =>
      cases i with
      | zero => omega
      | succ n =>
          cases j with
          | zero => simp [List.eraseIdx]
          | succ m => simpa [List.eraseIdx] using ih n m (by omega)

theorem eraseIdx_get?_ge (l : List α) (i j : Nat) (h : i ≤ j) :
    (l.eraseIdx i).get? j = l.get? (j + 1) := by
  induction l generalizing i j with
  | nil => simp [List.eraseIdx]
  | cons a as ih =>
      cases i with
      | zero => simp [List.eraseIdx]
      | succ n =>
          cases j with
          | zero => omega
          | succ m => simpa [List.eraseIdx] using ih n m (by omega)

/-- C7: `delete_operation i` signals the out-of-range error (leaving the
list untouched) for every index outside `[0, len-1]`; on a valid index it
removes exactly the record at `i` (earlier records keep their positions,
later ones shift down one) and adjusts the cursor: `i < a ↦ a - 1`,
`i = a ↦ i - 1`, `i > a ↦ a`. -/
theorem c7_delete_operation_spec (now : String) (s : ProjectState) (i : Int) :
    ((i < 0 ∨ (s.operations.length : Int) ≤ i) →
       ProjectState.delete_operation now i s
         = .error ("Operation index " ++ toString i ++ " out of range")) ∧
    (0 ≤ i → i < (s.operations.length : Int) →
       ∃ op s', ProjectState.delete_operation now i s = .ok (op, s') ∧
         s.operations.get? i.toNat = some op ∧
         s'.operations.length + 1 = s.operations.length ∧
         (∀ j : Nat, (j : Int) < i → s'.operations.get? j = s.operations.get? j) ∧
         (∀ j : Nat, i ≤ (j : Int) → s'.operations.get? j = s.operations.get? (j + 1)) ∧
         s'.active_op_index
           = (if i < s.active_op_index then s.active_op_index - 1
              else if i = s.active_op_index then i - 1
              else s.active_op_index) ∧
         s'.layers = s.layers) := by
  constructor
  · intro h
    simp only [ProjectState.delete_operation, dif_pos h]
  · intro h0 h1
    have hnot : ¬ (i < 0 ∨ (s.operations.length : Int) ≤ i) := by omega
    have hj : i.toNat < s.operations.length := by omega
    refine ⟨s.operations.get ⟨i.toNat, hj⟩,
      { s with operations := s.operations.eraseIdx i.toNat,
               active_op_index :=
                 if i < s.active_op_index then s.active_op_index - 1
                 else if i = s.active_op_index then i - 1
                 else s.active_op_index,
               updated_at := now }, ?_, ?_, ?_, ?_, ?_, rfl, rfl⟩
    · simp only [ProjectState.delete_operation, dif_neg hnot]
    · exact List.get?_eq_get hj
    · show (s.operations.eraseIdx i.toNat).length + 1 = s.operations.length
      rw [List.length_eraseIdx_of_lt hj]
      omega
    · intro j hji
      exact eraseIdx_get?_lt s.operations i.toNat j (by omega)
    · intro j hji
      exact eraseIdx_get?_ge s.operations i.toNat j (by omega)

/-- Witness for C7 on the spec's example: 4 operations, active = 3,
deleting index 1 leaves active = 2; and index 7 is rejected. -/
theorem c7_delete_operation_witness :
    (ProjectState.delete_operation "t" 7
        (sampleState [] [sampleOp "o1" "L" "p1" none, sampleOp "o2" "L" "p2" none,
          sampleOp "o3" "L" "p3" none, sampleOp "o4" "L" "p4" none] 3)).isOk = false ∧
    (∃ op s', ProjectState.delete_operation "t" 1
        (sampleState [] [sampleOp "o1" "L" "p1" none, sampleOp "o2" "L" "p2" none,
          sampleOp "o3" "L" "p3" none, sampleOp "o4" "L" "p4" none] 3) = .ok (op, s') ∧
      s'.active_op_index = 2) := by
  constructor
  · have h := (c7_delete_operation_spec "t"
      (sampleState [] [sampleOp "o1" "L" "p1" none, sampleOp "o2" "L" "p2" none,
        sampleOp "o3" "L" "p3" none, sampleOp "o4" "L" "p4" none] 3) 7).1 (by right; decide)
    rw [h]
    rfl
  · obtain ⟨op, s', heq, -, -, -, -, hact, -⟩ := (c7_delete_operation_spec "t"
      (sampleState [] [sampleOp "o1" "L" "p1" none, sampleOp "o2" "L" "p2" none,
        sampleOp "o3" "L" "p3" none, sampleOp "o4" "L" "p4" none] 3) 1).2
      (by decide) (by decide)
    exact ⟨op, s', heq, by rw [hact]; decide⟩

/-! ## No-op mutators leave the state unchanged (claim C10) -/

theorem findLayer_eq_none {layers : List Layer} {lid : String}
    (h : ∀ l ∈ layers, l.id ≠ lid) : ProjectState.findLayer layers lid = none := by
  unfold ProjectState.findLayer
  rw [List.find?_eq_none]
  intro p hp
  have hmem : p.2 ∈ layers := List.get?_mem (mem_idxFrom_spec hp).2
  simpa using h p.2 hmem

/-- C10: every reported no-op really is one. `undo` with a negative cursor
and `redo` with the cursor already on the last operation return `False`
and change no field (including `updated_at`); every layer mutator called
with an id that no layer carries returns its not-found value and changes
no field. -/
theorem c10_noop_mutators (now : String) (s : ProjectState) (lid nm : String)
    (v : Bool) (o : Rat) (px py : Int) :
    (s.active_op_index < 0 → s.undo now = (false, s)) ∧
    (s.active_op_index = (s.operations.length : Int) - 1 → s.redo now = (false, s)) ∧
    ((∀ l ∈ s.layers, l.id ≠ lid) →
       ProjectState.set_layer_visibility now lid v s = (false, s) ∧
       ProjectState.set_layer_opacity now lid o s = (false, s) ∧
       ProjectState.set_layer_position now lid px py s = (false, s) ∧
       ProjectState.rename_layer now lid nm s = (false, s) ∧
       ProjectState.move_layer_up now lid s = (false, s) ∧
       ProjectState.move_layer_down now lid s = (false, s) ∧
       ProjectState.delete_layer now lid s = (none, s)) := by
  refine ⟨fun h => ?_, fun h => ?_, fun h => ?_⟩
  · simp only [ProjectState.undo, ProjectState.can_undo]
    rw [if_neg (by simp; omega)]
  · simp only [ProjectState.redo, ProjectState.can_redo]
    rw [if_neg (by simp; omega)]
  · have hf := findLayer_eq_none h
    refine ⟨?_, ?_, ?_, ?_, ?_, ?_, ?_⟩ <;>
      simp only [ProjectState.set_layer_visibility, ProjectState.set_layer_opacity,
        ProjectState.set_layer_position, ProjectState.rename_layer,
        ProjectState.move_layer_up, ProjectState.move_layer_down,
        ProjectState.delete_layer, hf]

/-- Witness for C10 at a concrete one-layer project with an absent id. -/
theorem c10_noop_mutators_witness :
    (sampleState [sampleLayer "A" 0] [] (-1)).undo "t" =
      (false, sampleState [sampleLayer "A" 0] [] (-1)) ∧
    (sampleState [sampleLayer "A" 0] [] (-1)).redo "t" =
      (false, sampleState [sampleLayer "A" 0] [] (-1)) ∧
    ProjectState.delete_layer "t" "B" (sampleState [sampleLayer "A" 0] [] (-1)) =
      (none, sampleState [sampleLayer "A" 0] [] (-1)) := by
  have h := c10_noop_mutators "t" (sampleState [sampleLayer "A" 0] [] (-1)) "B" "nm"
    true 1 0 0
  exact ⟨h.1 (by decide), h.2.1 (by decide), (h.2.2 (by decide)).2.2.2.2.2.2⟩

/-! ## Filesystem abstraction

All paths below are the relative strings stored in the project state;
`pathExists p` models `(project_path / p).exists()`, `readable p` models a
successful `load_image` + per-layer compositing step, `imageInfo p` models
`get_image_info(project_path / p)` (`Except.error` being a raised
exception), `isAbsolute p` models `Path(p).is_absolute()` and
`relToProject p` models `Path(p).relative_to(project_path)` (`none` being
the `ValueError` for paths outside the project). -/
structure ImageInfo where
  width : Int
  height : Int
deriving DecidableEq, Repr

structure FS where
  pathExists : String → Bool
  readable : String → Bool
  imageInfo : String → Except String ImageInfo
  isAbsolute : String → Bool
  relToProject : String → Option String

/-! ## Compositor bitmap resolution (`core/renderer.py`, claims C9 and C8) -/

/-- The output path an operation record contributes inside the scan loop of
`get_layer_bitmap_path`: `output_layer_path` when truthy (non-`None`,
non-empty), else the legacy `output_path`. -/
def opOutputOf (op : OperationRecord) : String :=
  match op.output_layer_path with
  | some p => if p = "" then op.output_path else p
  | none => op.output_path

/-- The loop test `op.input_layer_id == layer.id` of
`get_layer_bitmap_path`. -/
def inputMatches (layerId : String) (op : OperationRecord) : Bool :=
  op.input_layer_id == layerId

/-- The scan loop of `get_layer_bitmap_path`: walk operation records at
indices `0 ≤ i ≤ active_op_index`, remembering the contribution of the
last one whose `input_layer_id` equals the layer's id. -/
def latestOpOutput (s : ProjectState) (layerId : String) : Option String :=
  (s.operations.take (s.active_op_index + 1).toNat).foldl
    (fun acc op => if inputMatches layerId op then some (opOutputOf op) else acc) none

/-- The path `get_layer_bitmap_path` resolves before its existence check:
the scan result when truthy, else the layer's own stored bitmap path. -/
def resolveLayerBitmapPath (s : ProjectState) (layer : Layer) : String :=
  match latestOpOutput s layer.id with
  | some p => if p = "" then layer.layer_path else p
  | none => layer.layer_path

/-- `get_layer_bitmap_path`: the resolved path when it exists on disk,
`None` otherwise. -/
def get_layer_bitmap_path (fs : FS) (s : ProjectState) (layer : Layer) : Option String :=
  let p := resolveLayerBitmapPath s layer
  if fs.pathExists p then some p else none

/-- The specification's phrasing of the resolution rule: among operation
records with index `≤ active_op_index` whose `input_layer_id` equals the
layer's id, in index order, the last one. -/
def lastMatchingOp (s : ProjectState) (layerId : String) : Option OperationRecord :=
  ((s.operations.take (s.active_op_index + 1).toNat).filter (inputMatches layerId)).getLast?

theorem foldl_latest_eq_getLast? (P : α → Bool) (f : α → β) (l : List α) (a : Option β) :
    l.foldl (fun acc x => if P x then some (f x) else acc) a
      = ((l.filter P).getLast?).elim a (fun x => some (f x)) := by
  induction l generalizing a with
  | nil => simp
  | cons x xs ih =>
      by_cases hP : P x
      · rw [List.foldl_cons, if_pos hP, ih, List.filter_cons_of_pos hP]
        cases hfil : xs.filter P with
        | nil => simp [hfil]
        | cons y ys =>
            rw [List.getLast?_cons_cons]
            rcases e : (y :: ys).getLast? with _ | z
            · simp at e
            · rfl
      · rw [List.foldl_cons, if_neg hP, ih, List.filter_cons_of_neg hP]

theorem latestOpOutput_eq_lastMatchingOp (s : ProjectState) (layerId : String) :
    latestOpOutput s layerId = (lastMatchingOp s layerId).map opOutputOf := by
  unfold latestOpOutput lastMatchingOp
  rw [foldl_latest_eq_getLast?]
  cases ((s.operations.take (s.active_op_index + 1).toNat).filter
      (inputMatches layerId)).getLast? <;> rfl

/-- The layer of the spec's resolution scenario, with original bitmap
`base.png`. -/
def scenarioLayer : Layer := { sampleLayer "L" 0 with layer_path := "base.png" }

/-- The project of the spec's resolution scenario: operation A (index 0)
outputs `a.png`, operation B (index 1) outputs `b.png`, both editing
layer `L`; parameterized by the active index. -/
def scenarioState (a : Int) : ProjectState :=
  sampleState [scenarioLayer]
    [sampleOp "A" "L" "a.png" none, sampleOp "B" "L" "b.png" none] a

/-- C9: the bitmap resolved for a layer is the contribution of the last
operation record with index `≤ active_op_index` whose `input_layer_id` is
the layer's id (its `output_layer_path` when set and non-empty, else its
legacy `output_path`), falling back to the layer's own stored bitmap path
when no record matches; and on the spec's concrete scenario the
resolution yields `b.png` / `a.png` / `base.png` at active index
`1` / `0` / `-1` respectively. -/
theorem c9_layer_bitmap_resolution (s : ProjectState) (layer : Layer) :
    (lastMatchingOp s layer.id = none →
       resolveLayerBitmapPath s layer = layer.layer_path) ∧
    (∀ op, lastMatchingOp s layer.id = some op → opOutputOf op ≠ "" →
       resolveLayerBitmapPath s layer = opOutputOf op) ∧
    (resolveLayerBitmapPath (scenarioState 1) scenarioLayer = "b.png" ∧
     resolveLayerBitmapPath (scenarioState 0) scenarioLayer = "a.png" ∧
     resolveLayerBitmapPath (scenarioState (-1)) scenarioLayer = "base.png") := by
  refine ⟨fun h => ?_, fun op h hne => ?_, by decide, by decide, by decide⟩
  · unfold resolveLayerBitmapPath
    rw [latestOpOutput_eq_lastMatchingOp, h]
    rfl
  · unfold resolveLayerBitmapPath
    rw [latestOpOutput_eq_lastMatchingOp, h]
    simp [hne]

/-- Witness for C9: the scenario at active index 1 seen through the
general rule (operation B is the last matching record). -/
theorem c9_layer_bitmap_resolution_witness :
    resolveLayerBitmapPath (scenarioState 1) scenarioLayer = "b.png" ∧
    lastMatchingOp (scenarioState 1) scenarioLayer.id
      = some (sampleOp "B" "L" "b.png" none) := by
  refine ⟨(c9_layer_bitmap_resolution (scenarioState 1) scenarioLayer).2.1
    (sampleOp "B" "L" "b.png" none) (by decide) (by decide), by decide⟩

/-! ## Rendering (`render_project`, claim C8) -/

inductive RenderError where
  | noLayers : RenderError
  | noVisibleLayers : RenderError
deriving DecidableEq, Repr

/-- `render_project`: fails when there are no layers or no visible layers;
otherwise composites the visible layers bottom-to-top, silently skipping
any layer whose bitmap is missing (`get_layer_bitmap_path = None`) or
unreadable (exception while loading/compositing), writes the composite to
`working/composite.png` and records that path on the state. The pixel
content is abstracted to the ordered list of `(layer, bitmap path)` pairs
actually pasted. -/
def render_project (fs : FS) (s : ProjectState) :
    Except RenderError (List (Layer × String) × ProjectState) :=
  if s.layers = [] then .error .noLayers
  else if s.get_visible_layer_count = 0 then .error .noVisibleLayers
  else
    let pasted := s.get_sorted_layers.filterMap (fun l =>
      if l.visible then
        match get_layer_bitmap_path fs s l with
        | some p => if fs.readable p then some (l, p) else none
        | none => none
      else none)
    .ok (pasted, { s with active_composite_path := some "working/composite.png" })

/-- C8: `render_project` fails with the two domain errors exactly when the
project has zero layers, or layers but zero visible ones; with at least
one visible layer it succeeds, records the composite path, pastes every
visible layer whose resolved bitmap exists and is readable, and pastes
nothing else — a layer with a missing or unreadable bitmap is skipped
without aborting the composite. -/
theorem c8_render_failure_modes (fs : FS) (s : ProjectState) :
    (s.layers = [] → render_project fs s = .error .noLayers) ∧
    (s.layers ≠ [] → s.get_visible_layer_count = 0 →
       render_project fs s = .error .noVisibleLayers) ∧
    (s.layers ≠ [] → s.get_visible_layer_count ≠ 0 →
       ∃ pasted s', render_project fs s = .ok (pasted, s') ∧
         s'.active_composite_path = some "working/composite.png" ∧
         (∀ l ∈ s.layers, l.visible = true →
            ∀ p, get_layer_bitmap_path fs s l = some p → fs.readable p = true →
              (l, p) ∈ pasted) ∧
         (∀ l p, (l, p) ∈ pasted →
            l ∈ s.layers ∧ l.visible = true ∧
            get_layer_bitmap_path fs s l = some p ∧ fs.readable p = true)) := by
  refine ⟨fun h => ?_, fun h h0 => ?_, fun h h0 => ?_⟩
  · simp only [render_project, if_pos h]
  · simp only [render_project, if_neg h, if_pos h0]
  · refine ⟨s.get_sorted_layers.filterMap (fun l =>
        if l.visible then
          match get_layer_bitmap_path fs s l with
          | some p => if fs.readable p then some (l, p) else none
          | none => none
        else none),
      { s with active_composite_path := some "working/composite.png" }, ?_, rfl, ?_, ?_⟩
    · simp only [render_project, if_neg h, if_neg h0]
    · intro l hl hvis p hres hread
      refine List.mem_filterMap.mpr ⟨l, ?_, ?_⟩
      · exact (List.perm_insertionSort _ s.layers).mem_iff.mpr hl
      · simp [hvis, hres, hread]
    · intro l p hmem
      obtain ⟨a, ha, hfa⟩ := List.mem_filterMap.mp hmem
      by_cases hvis : a.visible
      · rw [if_pos hvis] at hfa
        cases hres : get_layer_bitmap_path fs s a with
        | none => rw [hres] at hfa; simp at hfa
        | some q =>
            rw [hres] at hfa
            by_cases hread : fs.readable q
            · simp only [hread, if_true] at hfa
              obtain ⟨hla, hqp⟩ : a = l ∧ q = p := by
                have := hfa
                simpa using this
              subst hla; subst hqp
              exact ⟨(List.perm_insertionSort _ s.layers).mem_iff.mp ha, hvis, hres, hread⟩
            · simp [hread] at hfa
      · rw [if_neg hvis] at hfa; cases hfa

/-- Witness for C8: a two-layer project where the visible layer `A` has a
readable bitmap and layer `M`'s bitmap is missing on disk; rendering
succeeds and pastes exactly layer `A`. -/
theorem c8_render_failure_modes_witness :
    ∃ pasted s',
      render_project
        { pathExists := fun p => p = "working/A.png", readable := fun _ => true,
          imageInfo := fun _ => .error "no image", isAbsolute := fun _ => false,
          relToProject := fun _ => none }
        (sampleState [sampleLayer "A" 0, sampleLayer "M" 1] [] (-1)) = .ok (pasted, s') ∧
      s'.active_composite_path = some "working/composite.png" ∧
      (sampleLayer "A" 0, "working/A.png") ∈ pasted := by
  obtain ⟨pasted, s', heq, hpath, hin, -⟩ := (c8_render_failure_modes
    { pathExists := fun p => p = "working/A.png", readable := fun _ => true,
      imageInfo := fun _ => .error "no image", isAbsolute := fun _ => false,
      relToProject := fun _ => none }
    (sampleState [sampleLayer "A" 0, sampleLayer "M" 1] [] (-1))).2.2
    (by decide) (by decide)
  exact ⟨pasted, s', heq, hpath,
    hin (sampleLayer "A" 0) (by decide) (by decide) "working/A.png" (by decide) (by decide)⟩

/-! ## Validation and repair (`core/validation.py`, claims C2 and C4)

`validate_and_repair_project_state` is modelled step by step in source
order. Each entry appended to the Python `repairs` list of strings becomes
one constructor of `Repair` carrying the data interpolated into the
message. -/

inductive Repair where
  | clampedActiveHigh (oldIdx maxIdx : Int) : Repair
  | clampedActiveLow (oldIdx : Int) : Repair
  | resetActiveNoOps (oldIdx : Int) : Repair
  | opOutputMissing (i : Nat) (path : String) (oldIdx newIdx : Int) : Repair
  | inferredCanvas (oldW oldH newW newH : Int) : Repair
  | canvasInferFailed (msg : String) : Repair
  | normalizedLayerOrder (n : Nat) : Repair
  | compositeMissing (path : String) : Repair
  | compositeNotSet : Repair
  | compositeNeedsRender : Repair
  | convertedImagePath (rel : String) : Repair
  | imagePathOutside (path : String) : Repair
  | convertedLayerPath (rel : String) : Repair
  | layerPathOutside (path : String) : Repair
  | convertedOpPath (rel : String) : Repair
  | opPathOutside (path : String) : Repair
deriving DecidableEq, Repr

/-- `normalize_layer_order`: every layer object receives as `order` its
position in the order-sorted sequence; positions stand in for object
identity (`assignOrders` records which original position gets which new
order, and the original list order is kept). -/
def assignOrders : Nat → List (Nat × Layer) → List (Nat × Int)
  | _, [] => []
  | k, p :: ps => (p.1, (k : Int)) :: assignOrders (k + 1) ps

def ProjectState.normalize_layer_order (now : String) (s : ProjectState) : ProjectState :=
  { s with
    layers := (idxFrom 0 s.layers).map (fun p =>
      match (assignOrders 0 s.sortedIndexedLayers).lookup p.1 with
      | some o => { p.2 with order := o }
      | none => p.2),
    updated_at := now }

/-- Step 1: clamp `active_op_index` into `[-1, len-1]` (`-1` when there are
no operations). Python runs the `> max_index` and `< -1` checks in
sequence; they can never both fire (the first leaves `active = max_index ≥ 0`),
so they are modelled as exclusive branches. -/
def vrStep1 (s : ProjectState) : ProjectState × List Repair :=
  if s.operations.isEmpty then
    if s.active_op_index = -1 then (s, [])
    else ({ s with active_op_index := -1 }, [.resetActiveNoOps s.active_op_index])
  else
    if (s.operations.length : Int) - 1 < s.active_op_index then
      ({ s with active_op_index := (s.operations.length : Int) - 1 },
       [.clampedActiveHigh s.active_op_index ((s.operations.length : Int) - 1)])
    else if s.active_op_index < -1 then
      ({ s with active_op_index := -1 }, [.clampedActiveLow s.active_op_index])
    else (s, [])

/-- The scan of step 2: first index `i < bound` (counting from `i₀`) whose
operation's output file is missing, with that output path. -/
def findMissingOutput (fs : FS) : Nat → Nat → List OperationRecord → Option (Nat × String)
  | _, _, [] => none
  | i, bound, op :: rest =>
      if i < bound then
        if fs.pathExists op.output_path then findMissingOutput fs (i + 1) bound rest
        else some (i, op.output_path)
      else none

/-- Step 2: walk operations `0 .. active_op_index`; on the first missing
output file, move `active_op_index` back to just before it and stop. -/
def vrStep2 (fs : FS) (s : ProjectState) : ProjectState × List Repair :=
  match findMissingOutput fs 0 ((s.active_op_index + 1).toNat) s.operations with
  | some (i, path) =>
      ({ s with active_op_index := (i : Int) - 1 },
       [.opOutputMissing i path s.active_op_index ((i : Int) - 1)])
  | none => (s, [])

/-- Step 3: if the canvas dimensions are non-positive, try to infer them
from the first layer's bitmap; an unreadable image (raised exception)
only records a warning, a missing file or the absence of layers does
nothing at all. -/
def vrStep3 (fs : FS) (s : ProjectState) : ProjectState × List Repair :=
  if s.canvas_width ≤ 0 ∨ s.canvas_height ≤ 0 then
    match s.layers.head? with
    | none => (s, [])
    | some first =>
        if fs.pathExists first.layer_path then
          match fs.imageInfo first.layer_path with
          | .ok info =>
              ({ s with canvas_width := info.width, canvas_height := info.height },
               [.inferredCanvas s.canvas_width s.canvas_height info.width info.height])
          | .error e => (s, [.canvasInferFailed e])
        else (s, [])
  else (s, [])

/-- `len(set(orders)) == 1` for a non-empty list of layers. -/
def allOrdersEqual : List Layer → Bool
  | [] => true
  | l :: ls => ls.all (fun x => x.order == l.order)

/-- Step 4: if every layer shares one `order` value and there is more than
one layer, re-normalize orders to list positions. -/
def vrStep4 (now : String) (s : ProjectState) : ProjectState × List Repair :=
  if s.layers.isEmpty then (s, [])
  else if allOrdersEqual s.layers && decide (1 < s.layers.length) then
    (s.normalize_layer_order now, [.normalizedLayerOrder s.layers.length])
  else (s, [])

/-- Step 5: flag (never perform) composite regeneration: the recorded
composite file is missing, or no path is recorded (Python truthiness:
an empty-string path counts as not recorded) while the project has
layers or an active operation. -/
def vrStep5 (fs : FS) (s : ProjectState) : ProjectState × List Repair :=
  let flagged :=
    match s.active_composite_path with
    | some p =>
        if p = "" then
          if 0 ≤ s.active_op_index ∨ ¬ s.layers.isEmpty then [Repair.compositeNotSet] else []
        else if fs.pathExists p then [] else [Repair.compositeMissing p]
    | none =>
        if 0 ≤ s.active_op_index ∨ ¬ s.layers.isEmpty then [Repair.compositeNotSet] else []
  (s, if flagged.isEmpty then [] else flagged ++ [Repair.compositeNeedsRender])

/-- One path repair of step 6: convert an absolute path under the project
root to relative; flag (but keep) a path outside the project. -/
def fixPath (fs : FS) (conv warn : String → Repair) (p : String) : String × List Repair :=
  if fs.isAbsolute p then
    match fs.relToProject p with
    | some rel => (rel, [conv rel])
    | none => (p, [warn p])
  else (p, [])

/-- Applies a repairing function across a list, collecting repairs in
order. -/
def mapCollect (f : α → α × List Repair) : List α → List α × List Repair
  | [] => ([], [])
  | a :: as =>
      let r := f a
      let rs := mapCollect f as
      (r.1 :: rs.1, r.2 ++ rs.2)

/-- Step 6: repair absolute source-image, layer and operation paths. -/
def vrStep6 (fs : FS) (s : ProjectState) : ProjectState × List Repair :=
  let imgs := mapCollect (fun img =>
    let r := fixPath fs .convertedImagePath .imagePathOutside img.original_path
    ({ img with original_path := r.1 }, r.2)) s.source_images
  let lys := mapCollect (fun l =>
    let r := fixPath fs .convertedLayerPath .layerPathOutside l.layer_path
    ({ l with layer_path := r.1 }, r.2)) s.layers
  let ops := mapCollect (fun op =>
    let r := fixPath fs .convertedOpPath .opPathOutside op.output_path
    ({ op with output_path := r.1 }, r.2)) s.operations
  ({ s with source_images := imgs.1, layers := lys.1, operations := ops.1 },
   imgs.2 ++ lys.2 ++ ops.2)

/-- `validate_and_repair_project_state`: the six checks in source order;
`updated_at` is refreshed when any repair occurred. -/
def validate_and_repair_project_state (fs : FS) (now : String) (s : ProjectState) :
    ProjectState × List Repair :=
  let p1 := vrStep1 s
  let p2 := vrStep2 fs p1.1
  let p3 := vrStep3 fs p2.1
  let p4 := vrStep4 now p3.1
  let p5 := vrStep5 fs p4.1
  let p6 := vrStep6 fs p5.1
  let repairs := p1.2 ++ (p2.2 ++ (p3.2 ++ (p4.2 ++ (p5.2 ++ p6.2))))
  (if repairs.isEmpty then p6.1 else { p6.1 with updated_at := now }, repairs)

/-- The `active_op_index` invariant step 1 establishes. For an empty
operation list the bounds force `active_op_index = -1`. -/
def activeInRange (s : ProjectState) : Prop :=
  -1 ≤ s.active_op_index ∧ s.active_op_index ≤ (s.operations.length : Int) - 1

theorem vrStep1_noop (s : ProjectState) (h : activeInRange s) : vrStep1 s = (s, []) := by
  obtain ⟨h1, h2⟩ := h
  unfold vrStep1
  by_cases he : s.operations.isEmpty
  · have h0 : s.operations = [] := List.isEmpty_iff.mp he
    rw [if_pos he, if_pos (by rw [h0] at h2; simpa using le_antisymm h2 h1)]
  · rw [if_neg he, if_neg (by omega), if_neg (by omega)]

theorem vrStep1_activeInRange (s : ProjectState) : activeInRange (vrStep1 s).1 := by
  unfold vrStep1 activeInRange
  by_cases he : s.operations.isEmpty
  · have h0 : s.operations = [] := List.isEmpty_iff.mp he
    rw [if_pos he]
    by_cases ha : s.active_op_index = -1
    · rw [if_pos ha]
      constructor <;> simp [h0, ha]
    · rw [if_neg ha]
      constructor <;> simp [h0]
  · have h0 : s.operations ≠ [] := by simpa using he
    have hlen : 1 ≤ s.operations.length := by
      cases hc : s.operations with
      | nil => exact absurd hc h0
      | cons a as => simp
    rw [if_neg he]
    by_cases hh : (s.operations.length : Int) - 1 < s.active_op_index
    · rw [if_pos hh]
      constructor <;> simp
    · rw [if_neg hh]
      by_cases hl : s.active_op_index < -1
      · rw [if_pos hl]
        constructor <;> simp
      · rw [if_neg hl]
        constructor <;> simp <;> omega

theorem vrStep1_preserves (s : ProjectState) :
    (vrStep1 s).1.operations = s.operations ∧ (vrStep1 s).1.layers = s.layers ∧
    (vrStep1 s).1.canvas_width = s.canvas_width ∧
    (vrStep1 s).1.canvas_height = s.canvas_height ∧
    (vrStep1 s).1.source_images = s.source_images ∧
    (vrStep1 s).1.active_composite_path = s.active_composite_path := by
  unfold vrStep1
  split_ifs <;> exact ⟨rfl, rfl, rfl, rfl, rfl, rfl⟩

theorem findMissingOutput_none_iff (fs : FS) (l : List OperationRecord) (k b : Nat) :
    findMissingOutput fs k b l = none ↔
      ∀ (j : Nat) (op : OperationRecord), l.get? j = some op → k + j < b →
        fs.pathExists op.output_path = true := by
  induction l generalizing k with
  | nil => simp [findMissingOutput]
  | cons op rest ih =>
      by_cases hk : k < b
      · by_cases hex : fs.pathExists op.output_path
        · have hstep : findMissingOutput fs k b (op :: rest)
              = findMissingOutput fs (k + 1) b rest := by
            simp [findMissingOutput, hk, hex]
          rw [hstep, ih]
          constructor
          · intro h j op' hj hb
            cases j with
            | zero =>
                have e : op = op' := by simpa using hj
                rw [← e]; exact hex
            | succ m => exact h m op' (by simpa using hj) (by omega)
          · intro h j op' hj hb
            exact h (j + 1) op' (by simpa using hj) (by omega)
        · refine ⟨fun h => ?_, fun h => ?_⟩
          · simp [findMissingOutput, hk, hex] at h
          · exact absurd (h 0 op rfl (by omega)) (by simpa using hex)
      · have hstep : findMissingOutput fs k b (op :: rest) = none := by
          simp [findMissingOutput, hk]
        rw [hstep]
        refine ⟨fun _ j op' hj hb => absurd hb (by omega), fun _ => rfl⟩

theorem findMissingOutput_some_spec (fs : FS) (l : List OperationRecord)
    (k b i : Nat) (p : String) (h : findMissingOutput fs k b l = some (i, p)) :
    k ≤ i ∧ i < b ∧
    (∃ op, l.get? (i - k) = some op ∧ op.output_path = p ∧
       fs.pathExists op.output_path = false) ∧
    (∀ (j : Nat) (op : OperationRecord), l.get? j = some op → k + j < i →
       fs.pathExists op.output_path = true) := by
  induction l generalizing k with
  | nil => simp [findMissingOutput] at h
  | cons op rest ih =>
      by_cases hk : k < b
      · by_cases hex : fs.pathExists op.output_path
        · have h' : findMissingOutput fs (k + 1) b rest = some (i, p) := by
            simpa [findMissingOutput, hk, hex] using h
          obtain ⟨h1, h2, ⟨op', hg, hp, hne⟩, h4⟩ := ih (k + 1) h'
          refine ⟨by omega, h2, ⟨op', ?_, hp, hne⟩, ?_⟩
          · have e : i - k = (i - (k + 1)) + 1 := by omega
            rw [e]
            simpa using hg
          · intro j op'' hj hji
            cases j with
            | zero =>
                have e : op = op'' := by simpa using hj
                rw [← e]; exact hex
            | succ m => exact h4 m op'' (by simpa using hj) (by omega)
        · have heq : (k, op.output_path) = (i, p) := by
            simpa [findMissingOutput, hk, hex] using h
          have hki : k = i := congrArg Prod.fst heq
          have hpp : op.output_path = p := congrArg Prod.snd heq
          subst hki
          refine ⟨le_refl _, hk, ⟨op, by simp, hpp, by simpa using hex⟩, ?_⟩
          intro j op'' hj hji
          exact absurd hji (by omega)
      · simp [findMissingOutput, hk] at h

theorem vrStep2_preserves (fs : FS) (s : ProjectState) :
    (vrStep2 fs s).1.operations = s.operations ∧ (vrStep2 fs s).1.layers = s.layers ∧
    (vrStep2 fs s).1.canvas_width = s.canvas_width ∧
    (vrStep2 fs s).1.canvas_height = s.canvas_height ∧
    (vrStep2 fs s).1.source_images = s.source_images ∧
    (vrStep2 fs s).1.active_composite_path = s.active_composite_path := by
  unfold vrStep2
  cases findMissingOutput fs 0 ((s.active_op_index + 1).toNat) s.operations with
  | none => exact ⟨rfl, rfl, rfl, rfl, rfl, rfl⟩
  | some v => exact ⟨rfl, rfl, rfl, rfl, rfl, rfl⟩

theorem vrStep2_activeInRange (fs : FS) (s : ProjectState) (h : activeInRange s) :
    activeInRange (vrStep2 fs s).1 := by
  obtain ⟨h1, h2⟩ := h
  unfold vrStep2 activeInRange
  cases hm : findMissingOutput fs 0 ((s.active_op_index + 1).toNat) s.operations with
  | none => exact ⟨h1, h2⟩
  | some v =>
      obtain ⟨-, hb, -, -⟩ := findMissingOutput_some_spec fs s.operations 0
        ((s.active_op_index + 1).toNat) v.1 v.2 (by rw [hm])
      constructor <;> simp <;> omega

theorem vrStep2_outputs_ok (fs : FS) (s : ProjectState) :
    findMissingOutput fs 0 (((vrStep2 fs s).1.active_op_index + 1).toNat)
      (vrStep2 fs s).1.operations = none := by
  unfold vrStep2
  cases hm : findMissingOutput fs 0 ((s.active_op_index + 1).toNat) s.operations with
  | none => exact hm
  | some v =>
      obtain ⟨-, hb, -, h4⟩ := findMissingOutput_some_spec fs s.operations 0
        ((s.active_op_index + 1).toNat) v.1 v.2 (by rw [hm])
      show findMissingOutput fs 0 (((v.1 : Int) - 1 + 1).toNat) s.operations = none
      rw [findMissingOutput_none_iff]
      intro j op hj hjb
      exact h4 j op hj (by omega)

theorem vrStep2_noop (fs : FS) (s : ProjectState)
    (h : findMissingOutput fs 0 ((s.active_op_index + 1).toNat) s.operations = none) :
    vrStep2 fs s = (s, []) := by
  unfold vrStep2
  rw [h]

theorem vrStep3_shape (fs : FS) (s : ProjectState) :
    ∃ w h, (vrStep3 fs s).1 = { s with canvas_width := w, canvas_height := h } := by
  unfold vrStep3
  split_ifs with h1
  · cases hh : s.layers.head? with
    | none => exact ⟨s.canvas_width, s.canvas_height, rfl⟩
    | some first =>
        by_cases he : fs.pathExists first.layer_path
        · cases hi : fs.imageInfo first.layer_path with
          | ok info => exact ⟨info.width, info.height, by simp [he, hi]⟩
          | error e => exact ⟨s.canvas_width, s.canvas_height, by simp [he, hi]⟩
        · exact ⟨s.canvas_width, s.canvas_height, by simp [he]⟩
  · exact ⟨s.canvas_width, s.canvas_height, rfl⟩

theorem vrStep3_preserves (fs : FS) (s : ProjectState) :
    (vrStep3 fs s).1.operations = s.operations ∧ (vrStep3 fs s).1.layers = s.layers ∧
    (vrStep3 fs s).1.active_op_index = s.active_op_index ∧
    (vrStep3 fs s).1.source_images = s.source_images ∧
    (vrStep3 fs s).1.active_composite_path = s.active_composite_path := by
  obtain ⟨w, h, hs⟩ := vrStep3_shape fs s
  rw [hs]
  exact ⟨rfl, rfl, rfl, rfl, rfl⟩

theorem vrStep3_noop (fs : FS) (s : ProjectState)
    (hw : 0 < s.canvas_width) (hh : 0 < s.canvas_height) : vrStep3 fs s = (s, []) := by
  unfold vrStep3
  rw [if_neg (by omega)]

theorem vrStep5_state (fs : FS) (s : ProjectState) : (vrStep5 fs s).1 = s := rfl

theorem vrStep5_noop (fs : FS) (s : ProjectState) (c : String)
    (hc : s.active_composite_path = some c) (hne : c ≠ "")
    (hex : fs.pathExists c = true) : vrStep5 fs s = (s, []) := by
  unfold vrStep5
  rw [hc]
  simp [hne, hex]

theorem fixPath_noop (fs : FS) (conv warn : String → Repair) (p : String)
    (h : fs.isAbsolute p = false) : fixPath fs conv warn p = (p, []) := by
  unfold fixPath
  rw [h]
  rfl

theorem mapCollect_noop (f : α → α × List Repair) (l : List α)
    (h : ∀ a ∈ l, f a = (a, [])) : mapCollect f l = (l, []) := by
  induction l with
  | nil => rfl
  | cons a as ih =>
      unfold mapCollect
      rw [h a (List.mem_cons_self a as), ih (fun x hx => h x (List.mem_cons_of_mem a hx))]
      rfl

theorem vrStep6_noop (fs : FS) (s : ProjectState)
    (hsrc : ∀ img ∈ s.source_images, fs.isAbsolute img.original_path = false)
    (hlay : ∀ l ∈ s.layers, fs.isAbsolute l.layer_path = false)
    (hops : ∀ op ∈ s.operations, fs.isAbsolute op.output_path = false) :
    vrStep6 fs s = (s, []) := by
  unfold vrStep6
  rw [mapCollect_noop _ _ (fun img hi => by rw [fixPath_noop fs _ _ _ (hsrc img hi)]),
      mapCollect_noop _ _ (fun l hl => by rw [fixPath_noop fs _ _ _ (hlay l hl)]),
      mapCollect_noop _ _ (fun op ho => by rw [fixPath_noop fs _ _ _ (hops op ho)])]
  rfl

theorem vrStep6_canvas (fs : FS) (s : ProjectState) :
    (vrStep6 fs s).1.canvas_width = s.canvas_width ∧
    (vrStep6 fs s).1.canvas_height = s.canvas_height := ⟨rfl, rfl⟩

theorem mapEqOfMem {l : List α} {f g : α → β} (h : ∀ a ∈ l, f a = g a) :
    l.map f = l.map g := by
  induction l with
  | nil => rfl
  | cons a as ih =>
      simp only [List.map_cons, h a (List.mem_cons_self a as)]
      rw [ih (fun x hx => h x (List.mem_cons_of_mem a hx))]

theorem idxFrom_map_snd (l : List α) (k : Nat) (g : α → β) :
    (idxFrom k l).map (fun p => g p.2) = l.map g := by
  induction l generalizing k with
  | nil => rfl
  | cons a as ih => simp [idxFrom, ih (k + 1)]

theorem insertionSort_of_all_le (l : List (Nat × Layer))
    (h : ∀ x ∈ l, ∀ y ∈ l, ProjectState.idxOrderLe x y) :
    List.insertionSort ProjectState.idxOrderLe l = l := by
  induction l with
  | nil => rfl
  | cons a as ih =>
      have hcons : ∀ b ∈ as, ProjectState.idxOrderLe a b :=
        fun b hb => h a (List.mem_cons_self a as) b (List.mem_cons_of_mem a hb)
      rw [List.insertionSort_cons _ hcons,
          ih (fun x hx y hy => h x (List.mem_cons_of_mem a hx) y (List.mem_cons_of_mem a hy))]

theorem assignOrders_idxFrom (l : List Layer) (k : Nat) :
    assignOrders k (idxFrom k l) = (idxFrom k l).map (fun p => (p.1, (p.1 : Int))) := by
  induction l generalizing k with
  | nil => rfl
  | cons a as ih => simp [idxFrom, assignOrders, ih (k + 1)]

theorem lookup_posMap (l : List Layer) (k j : Nat) (h1 : k ≤ j) (h2 : j < k + l.length) :
    List.lookup j ((idxFrom k l).map (fun p => (p.1, (p.1 : Int)))) = some (j : Int) := by
  induction l generalizing k with
  | nil => simp at h2; omega
  | cons a as ih =>
      simp only [idxFrom, List.map_cons]
      by_cases hjk : j = k
      · subst hjk
        simp [List.lookup]
      · rw [List.lookup]
        rw [show (j == k) = false from beq_eq_false_iff_ne.mpr hjk]
        exact ih (k + 1) (by omega) (by simp at h2 ⊢; omega)

theorem allOrdersEqual_spec {layers : List Layer} (h : allOrdersEqual layers = true) :
    ∀ x ∈ layers, ∀ y ∈ layers, x.order = y.order := by
  cases layers with
  | nil => intro x hx; simp at hx
  | cons l ls =>
      have hall : ∀ z ∈ ls, z.order = l.order := by simpa [allOrdersEqual] using h
      intro x hx y hy
      have hx' : x.order = l.order := by
        rcases List.mem_cons.mp hx with rfl | hx'
        · rfl
        · exact hall x hx'
      have hy' : y.order = l.order := by
        rcases List.mem_cons.mp hy with rfl | hy'
        · rfl
        · exact hall y hy'
      rw [hx', hy']

theorem normalize_layers_of_allEq (now : String) (s : ProjectState)
    (h : allOrdersEqual s.layers = true) :
    (s.normalize_layer_order now).layers
      = (idxFrom 0 s.layers).map (fun p => { p.2 with order := (p.1 : Int) }) := by
  have hsort : s.sortedIndexedLayers = idxFrom 0 s.layers := by
    apply insertionSort_of_all_le
    intro x hx y hy
    have hx2 : x.2 ∈ s.layers := List.get?_mem (mem_idxFrom_spec hx).2
    have hy2 : y.2 ∈ s.layers := List.get?_mem (mem_idxFrom_spec hy).2
    exact le_of_eq (allOrdersEqual_spec h x.2 hx2 y.2 hy2)
  show (idxFrom 0 s.layers).map _ = _
  rw [hsort, assignOrders_idxFrom]
  apply mapEqOfMem
  intro p hp
  obtain ⟨-, hget⟩ := mem_idxFrom_spec hp
  have hlt : p.1 < s.layers.length := by
    have := List.get?_eq_some.mp (by simpa using hget)
    exact this.1
  rw [lookup_posMap s.layers 0 p.1 (by omega) (by omega)]

theorem vrStep4_noop (now : String) (s : ProjectState)
    (h : allOrdersEqual s.layers = false ∨ s.layers.length ≤ 1) :
    vrStep4 now s = (s, []) := by
  unfold vrStep4
  by_cases he : s.layers.isEmpty
  · rw [if_pos he]
  · rw [if_neg he, if_neg ?hc]
    case hc =>
      simp only [Bool.and_eq_true, decide_eq_true_eq, not_and]
      intro hall
      rcases h with h | h
      · rw [hall] at h; cases h
      · omega

theorem vrStep4_post (now : String) (s : ProjectState) :
    allOrdersEqual (vrStep4 now s).1.layers = false ∨
    (vrStep4 now s).1.layers.length ≤ 1 := by
  unfold vrStep4
  by_cases he : s.layers.isEmpty
  · rw [if_pos he]
    right
    simp [List.isEmpty_iff.mp he]
  · by_cases hc : (allOrdersEqual s.layers && decide (1 < s.layers.length)) = true
    · rw [if_neg he, if_pos hc]
      left
      obtain ⟨hall, hlen⟩ : allOrdersEqual s.layers = true ∧ 1 < s.layers.length := by
        simpa [Bool.and_eq_true, decide_eq_true_eq] using hc
      have hmap := normalize_layers_of_allEq now s hall
      obtain ⟨a, l1, hL1⟩ :=
        List.exists_cons_of_ne_nil (show s.layers ≠ [] by simpa using he)
      obtain ⟨b, l2, hL2⟩ := List.exists_cons_of_ne_nil
        (show l1 ≠ [] by
          intro hnil
          rw [hL1, hnil] at hlen
          simp at hlen)
      rw [hL1, hL2] at hmap
      show allOrdersEqual (s.normalize_layer_order now).layers = false
      rw [hmap]
      simp [idxFrom, allOrdersEqual]
    · rw [if_neg he, if_neg hc]
      show allOrdersEqual s.layers = false ∨ s.layers.length ≤ 1
      by_cases hall : allOrdersEqual s.layers
      · right
        have : ¬ (1 < s.layers.length) := by
          intro hlen
          exact hc (by simp [hall, hlen])
        omega
      · left
        simpa using hall

theorem vrStep4_preserves (now : String) (s : ProjectState) :
    (vrStep4 now s).1.operations = s.operations ∧
    (vrStep4 now s).1.active_op_index = s.active_op_index ∧
    (vrStep4 now s).1.canvas_width = s.canvas_width ∧
    (vrStep4 now s).1.canvas_height = s.canvas_height ∧
    (vrStep4 now s).1.source_images = s.source_images ∧
    (vrStep4 now s).1.active_composite_path = s.active_composite_path := by
  unfold vrStep4 ProjectState.normalize_layer_order
  split_ifs <;> exact ⟨rfl, rfl, rfl, rfl, rfl, rfl⟩

theorem vrStep4_layer_paths (now : String) (s : ProjectState) :
    (vrStep4 now s).1.layers.map Layer.layer_path = s.layers.map Layer.layer_path := by
  unfold vrStep4
  split_ifs with h1 h2
  · rfl
  · show ((idxFrom 0 s.layers).map _).map Layer.layer_path = _
    rw [List.map_map]
    exact (mapEqOfMem (fun p _ => by
      show (match (assignOrders 0 s.sortedIndexedLayers).lookup p.1 with
            | some o => { p.2 with order := o }
            | none => p.2).layer_path = p.2.layer_path
      cases (assignOrders 0 s.sortedIndexedLayers).lookup p.1 <;> rfl)).trans
      (idxFrom_map_snd s.layers 0 Layer.layer_path)
  · rfl

theorem validate_noop (fs : FS) (now : String) (s : ProjectState)
    (h1 : vrStep1 s = (s, [])) (h2 : vrStep2 fs s = (s, []))
    (h3 : vrStep3 fs s = (s, [])) (h4 : vrStep4 now s = (s, []))
    (h5 : vrStep5 fs s = (s, [])) (h6 : vrStep6 fs s = (s, [])) :
    validate_and_repair_project_state fs now s = (s, []) := by
  unfold validate_and_repair_project_state
  rw [h1]
  simp only []
  rw [h2]
  simp only []
  rw [h3]
  simp only []
  rw [h4]
  simp only []
  rw [h5]
  simp only []
  rw [h6]
  rfl

/-- An all-failing filesystem: nothing exists, nothing is readable, image
reads raise, no path is absolute. -/
def sampleFS : FS :=
  { pathExists := fun _ => false, readable := fun _ => false,
    imageInfo := fun _ => .error "unreadable", isAbsolute := fun _ => false,
    relToProject := fun _ => none }

/-- An all-succeeding filesystem: every path exists and is readable. -/
def sampleFS2 : FS :=
  { pathExists := fun _ => true, readable := fun _ => true,
    imageInfo := fun _ => .error "unreadable", isAbsolute := fun _ => false,
    relToProject := fun _ => none }

/-- C2 counterexample: a healthy one-layer project that merely has no
composite recorded. Both the first and the second run of
`validate_and_repair_project_state` return the repairs
`[compositeNotSet, compositeNeedsRender]`: the pass only flags the
missing composite for the caller and never sets the path itself, so the
second run's repair list is not empty. -/
theorem c2_idempotence_counterexample :
    (validate_and_repair_project_state sampleFS "t2"
        (validate_and_repair_project_state sampleFS "t1"
          (sampleState [sampleLayer "A" 0] [] (-1))).1).2 ≠ [] := by
  decide

/-- C2 amended: running the pass twice yields an empty repair list on the
second run (and an unchanged state) in the absence of the conditions that
can only be flagged, never repaired: the project's composite path is
recorded and its file exists, no stored path is absolute, and the first
run ends with positive canvas dimensions. Without those provisos the
second run repeats the composite flags and the warnings (see the
counterexample). -/
theorem c2_idempotent_amended (fs : FS) (now now' : String) (s : ProjectState)
    (hsrc : ∀ img ∈ s.source_images, fs.isAbsolute img.original_path = false)
    (hlay : ∀ l ∈ s.layers, fs.isAbsolute l.layer_path = false)
    (hops : ∀ op ∈ s.operations, fs.isAbsolute op.output_path = false)
    (hcomp : ∃ c, s.active_composite_path = some c ∧ c ≠ "" ∧ fs.pathExists c = true)
    (hcanvas : 0 < (validate_and_repair_project_state fs now s).1.canvas_width ∧
               0 < (validate_and_repair_project_state fs now s).1.canvas_height) :
    validate_and_repair_project_state fs now'
        (validate_and_repair_project_state fs now s).1
      = ((validate_and_repair_project_state fs now s).1, []) := by
  obtain ⟨c, hc, hcne, hcex⟩ := hcomp
  set u1 := (vrStep1 s).1 with hu1
  set u2 := (vrStep2 fs u1).1 with hu2
  set u3 := (vrStep3 fs u2).1 with hu3
  set u4 := (vrStep4 now u3).1 with hu4
  set u5 := (vrStep5 fs u4).1 with hu5
  set u6 := (vrStep6 fs u5).1 with hu6
  set S := (validate_and_repair_project_state fs now s).1 with hS
  -- step 5 never changes the state
  have h54 : u5 = u4 := by rw [hu5, vrStep5_state]
  -- operations are never touched before step 6
  have hops1 : u1.operations = s.operations := (vrStep1_preserves s).1
  have hops2 : u2.operations = s.operations := ((vrStep2_preserves fs u1).1).trans hops1
  have hops3 : u3.operations = s.operations := ((vrStep3_preserves fs u2).1).trans hops2
  have hops4 : u4.operations = s.operations := ((vrStep4_preserves now u3).1).trans hops3
  have hops5 : u5.operations = s.operations := by rw [h54]; exact hops4
  -- layers are untouched before step 4, and step 4 keeps every layer path
  have hlay1 : u1.layers = s.layers := (vrStep1_preserves s).2.1
  have hlay2 : u2.layers = s.layers := ((vrStep2_preserves fs u1).2.1).trans hlay1
  have hlay3 : u3.layers = s.layers := ((vrStep3_preserves fs u2).2.1).trans hlay2
  have hpaths4 : u4.layers.map Layer.layer_path = s.layers.map Layer.layer_path := by
    have := vrStep4_layer_paths now u3
    rw [hlay3] at this
    exact this
  have hpaths5 : u5.layers.map Layer.layer_path = s.layers.map Layer.layer_path := by
    rw [h54]; exact hpaths4
  -- source images and composite path are untouched before step 6
  have hsrc5 : u5.source_images = s.source_images := by
    rw [h54]
    exact ((vrStep4_preserves now u3).2.2.2.2.1).trans
      (((vrStep3_preserves fs u2).2.2.2.1).trans
        (((vrStep2_preserves fs u1).2.2.2.2.1).trans (vrStep1_preserves s).2.2.2.2.1))
  have hcomp5 : u5.active_composite_path = s.active_composite_path := by
    rw [h54]
    exact ((vrStep4_preserves now u3).2.2.2.2.2).trans
      (((vrStep3_preserves fs u2).2.2.2.2).trans
        (((vrStep2_preserves fs u1).2.2.2.2.2).trans (vrStep1_preserves s).2.2.2.2.2))
  -- step 6 is the identity: no stored path is absolute
  have h65 : vrStep6 fs u5 = (u5, []) := by
    apply vrStep6_noop
    · rw [hsrc5]; exact hsrc
    · intro l hl
      have hmem : l.layer_path ∈ u5.layers.map Layer.layer_path :=
        List.mem_map_of_mem _ hl
      rw [hpaths5] at hmem
      obtain ⟨l0, hl0, he⟩ := List.mem_map.mp hmem
      rw [← he]
      exact hlay l0 hl0
    · rw [hops5]; exact hops
  have h6eq : u6 = u5 := by rw [hu6, h65]
  -- the final state is u6 up to `updated_at`
  have hSsplit : S = u6 ∨ S = { u6 with updated_at := now } := by
    have hif : S = if (validate_and_repair_project_state fs now s).2.isEmpty
        then u6 else { u6 with updated_at := now } := rfl
    by_cases hre : (validate_and_repair_project_state fs now s).2.isEmpty
    · left; rw [hif, if_pos hre]
    · right; rw [hif, if_neg hre]
  have hSops : S.operations = s.operations := by
    rcases hSsplit with h | h <;> rw [h] <;>
      exact (show u6.operations = s.operations from h6eq ▸ hops5)
  have hSact : S.active_op_index = u2.active_op_index := by
    have h4a : u4.active_op_index = u2.active_op_index :=
      ((vrStep4_preserves now u3).2.1).trans ((vrStep3_preserves fs u2).2.2.1)
    rcases hSsplit with h | h <;> rw [h] <;>
      exact (show u6.active_op_index = u2.active_op_index by rw [h6eq, h54]; exact h4a)
  have hSlay : S.layers = u4.layers := by
    rcases hSsplit with h | h <;> rw [h] <;>
      exact (show u6.layers = u4.layers by rw [h6eq, h54])
  have hSsrc : S.source_images = s.source_images := by
    rcases hSsplit with h | h <;> rw [h] <;>
      exact (show u6.source_images = s.source_images by rw [h6eq]; exact hsrc5)
  have hScomp : S.active_composite_path = s.active_composite_path := by
    rcases hSsplit with h | h <;> rw [h] <;>
      exact (show u6.active_composite_path = s.active_composite_path by
        rw [h6eq]; exact hcomp5)
  -- the six checks are no-ops on S
  have n1 : vrStep1 S = (S, []) := by
    apply vrStep1_noop
    have air : activeInRange u2 := vrStep2_activeInRange fs u1 (vrStep1_activeInRange s)
    constructor
    · rw [hSact]; exact air.1
    · rw [hSact, hSops, ← hops2]; exact air.2
  have n2 : vrStep2 fs S = (S, []) := by
    apply vrStep2_noop
    have out2 := vrStep2_outputs_ok fs u1
    rw [← hu2] at out2
    rw [hSact, hSops, ← hops2]
    exact out2
  have n3 : vrStep3 fs S = (S, []) := vrStep3_noop fs S hcanvas.1 hcanvas.2
  have n4 : vrStep4 now' S = (S, []) := by
    apply vrStep4_noop
    have p4 := vrStep4_post now u3
    rw [← hu4] at p4
    rw [hSlay]
    exact p4
  have n5 : vrStep5 fs S = (S, []) :=
    vrStep5_noop fs S c (hScomp.trans hc) hcne hcex
  have n6 : vrStep6 fs S = (S, []) := by
    apply vrStep6_noop
    · rw [hSsrc]; exact hsrc
    · intro l hl
      have hmem : l.layer_path ∈ S.layers.map Layer.layer_path :=
        List.mem_map_of_mem _ hl
      rw [hSlay, hpaths4] at hmem
      obtain ⟨l0, hl0, he⟩ := List.mem_map.mp hmem
      rw [← he]
      exact hlay l0 hl0
    · rw [hSops]; exact hops
  exact validate_noop fs now' S n1 n2 n3 n4 n5 n6

/-- The concrete project of the amended-C2 witness: one layer, a recorded
composite path, positive canvas. -/
def c2WitnessState : ProjectState :=
  { sampleState [sampleLayer "A" 0] [] (-1) with
    active_composite_path := some "working/composite.png" }

/-- Witness for the amended C2 at a concrete healthy project. -/
theorem c2_idempotent_amended_witness :
    validate_and_repair_project_state sampleFS2 "t2"
        (validate_and_repair_project_state sampleFS2 "t1" c2WitnessState).1
      = ((validate_and_repair_project_state sampleFS2 "t1" c2WitnessState).1, []) :=
  c2_idempotent_amended sampleFS2 "t1" "t2" c2WitnessState (by decide) (by decide)
    (by decide) ⟨"working/composite.png", rfl, by decide, rfl⟩ ⟨by decide, by decide⟩

/-! ## Canvas inference during repair (claim C4) -/

theorem vrStep3_skip_none (fs : FS) (s : ProjectState)
    (h1 : s.canvas_width ≤ 0 ∨ s.canvas_height ≤ 0) (h2 : s.layers.head? = none) :
    vrStep3 fs s = (s, []) := by
  unfold vrStep3
  rw [if_pos h1, h2]

theorem vrStep3_skip_missing (fs : FS) (s : ProjectState) (first : Layer)
    (h1 : s.canvas_width ≤ 0 ∨ s.canvas_height ≤ 0) (h2 : s.layers.head? = some first)
    (h3 : fs.pathExists first.layer_path = false) : vrStep3 fs s = (s, []) := by
  unfold vrStep3
  rw [if_pos h1, h2]
  simp [h3]

theorem vrStep3_infer (fs : FS) (s : ProjectState) (first : Layer) (info : ImageInfo)
    (h1 : s.canvas_width ≤ 0 ∨ s.canvas_height ≤ 0) (h2 : s.layers.head? = some first)
    (h3 : fs.pathExists first.layer_path = true)
    (h4 : fs.imageInfo first.layer_path = .ok info) :
    vrStep3 fs s = ({ s with canvas_width := info.width, canvas_height := info.height },
      [.inferredCanvas s.canvas_width s.canvas_height info.width info.height]) := by
  unfold vrStep3
  rw [if_pos h1, h2]
  simp [h3, h4]

theorem vrStep3_warn (fs : FS) (s : ProjectState) (first : Layer) (e : String)
    (h1 : s.canvas_width ≤ 0 ∨ s.canvas_height ≤ 0) (h2 : s.layers.head? = some first)
    (h3 : fs.pathExists first.layer_path = true)
    (h4 : fs.imageInfo first.layer_path = .error e) :
    vrStep3 fs s = (s, [.canvasInferFailed e]) := by
  unfold vrStep3
  rw [if_pos h1, h2]
  simp [h3, h4]

theorem validate_state_cases (fs : FS) (now : String) (s : ProjectState) :
    (validate_and_repair_project_state fs now s).1
        = (vrStep6 fs (vrStep5 fs (vrStep4 now
            (vrStep3 fs (vrStep2 fs (vrStep1 s).1).1).1).1).1).1 ∨
    (validate_and_repair_project_state fs now s).1
        = { (vrStep6 fs (vrStep5 fs (vrStep4 now
              (vrStep3 fs (vrStep2 fs (vrStep1 s).1).1).1).1).1).1
            with updated_at := now } := by
  have hif : (validate_and_repair_project_state fs now s).1
      = if (validate_and_repair_project_state fs now s).2.isEmpty
        then (vrStep6 fs (vrStep5 fs (vrStep4 now
               (vrStep3 fs (vrStep2 fs (vrStep1 s).1).1).1).1).1).1
        else { (vrStep6 fs (vrStep5 fs (vrStep4 now
                 (vrStep3 fs (vrStep2 fs (vrStep1 s).1).1).1).1).1).1
               with updated_at := now } := rfl
  by_cases hre : (validate_and_repair_project_state fs now s).2.isEmpty
  · left; rw [hif, if_pos hre]
  · right; rw [hif, if_neg hre]

theorem validate_repairs_eq (fs : FS) (now : String) (s : ProjectState) :
    (validate_and_repair_project_state fs now s).2
      = (vrStep1 s).2 ++ ((vrStep2 fs (vrStep1 s).1).2 ++
          ((vrStep3 fs (vrStep2 fs (vrStep1 s).1).1).2 ++
            ((vrStep4 now (vrStep3 fs (vrStep2 fs (vrStep1 s).1).1).1).2 ++
              ((vrStep5 fs (vrStep4 now
                  (vrStep3 fs (vrStep2 fs (vrStep1 s).1).1).1).1).2 ++
                (vrStep6 fs (vrStep5 fs (vrStep4 now
                  (vrStep3 fs (vrStep2 fs (vrStep1 s).1).1).1).1).1).2)))) := rfl

/-- C4 counterexample: a project persisted with `canvas_width = 0` and no
layers comes out of the repair pass still with `canvas_width = 0` (and no
repair or warning at all): the pass has no fixed-default fallback, so the
dimensions are not positive "in every case". -/
theorem c4_canvas_counterexample :
    ¬ (0 < (validate_and_repair_project_state sampleFS "t"
        { sampleState [] [] (-1) with
          canvas_width := 0, canvas_height := 0 }).1.canvas_width) ∧
    (validate_and_repair_project_state sampleFS "t"
        { sampleState [] [] (-1) with
          canvas_width := 0, canvas_height := 0 }).2 = [] := by
  constructor <;> decide

/-- C4 amended: during validation, non-positive canvas dimensions are
replaced by the first layer's bitmap dimensions only when such a layer
exists, its file exists, and the image info read succeeds; a read failure
leaves them unchanged and records a warning; no layers or a missing file
leaves them unchanged silently — there is no fixed-default fallback, so
positive dimensions after the pass are not guaranteed. -/
theorem c4_canvas_after_repair (fs : FS) (now : String) (s : ProjectState) :
    ((0 < s.canvas_width ∧ 0 < s.canvas_height) →
       (validate_and_repair_project_state fs now s).1.canvas_width = s.canvas_width ∧
       (validate_and_repair_project_state fs now s).1.canvas_height = s.canvas_height) ∧
    (¬ (0 < s.canvas_width ∧ 0 < s.canvas_height) →
       (s.layers.head? = none →
          (validate_and_repair_project_state fs now s).1.canvas_width = s.canvas_width ∧
          (validate_and_repair_project_state fs now s).1.canvas_height = s.canvas_height) ∧
       (∀ first, s.layers.head? = some first →
          (fs.pathExists first.layer_path = false →
             (validate_and_repair_project_state fs now s).1.canvas_width = s.canvas_width ∧
             (validate_and_repair_project_state fs now s).1.canvas_height
               = s.canvas_height) ∧
          (fs.pathExists first.layer_path = true →
             (∀ info, fs.imageInfo first.layer_path = .ok info →
                (validate_and_repair_project_state fs now s).1.canvas_width = info.width ∧
                (validate_and_repair_project_state fs now s).1.canvas_height
                  = info.height) ∧
             (∀ e, fs.imageInfo first.layer_path = .error e →
                ((validate_and_repair_project_state fs now s).1.canvas_width
                    = s.canvas_width ∧
                 (validate_and_repair_project_state fs now s).1.canvas_height
                    = s.canvas_height) ∧
                Repair.canvasInferFailed e
                  ∈ (validate_and_repair_project_state fs now s).2)))) := by
  set u1 := (vrStep1 s).1 with hu1
  set u2 := (vrStep2 fs u1).1 with hu2
  set u3 := (vrStep3 fs u2).1 with hu3
  set u4 := (vrStep4 now u3).1 with hu4
  set u5 := (vrStep5 fs u4).1 with hu5
  set u6 := (vrStep6 fs u5).1 with hu6
  set S := (validate_and_repair_project_state fs now s).1 with hS
  have h54 : u5 = u4 := by rw [hu5, vrStep5_state]
  have hcw2 : u2.canvas_width = s.canvas_width :=
    ((vrStep2_preserves fs u1).2.2.1).trans (vrStep1_preserves s).2.2.1
  have hch2 : u2.canvas_height = s.canvas_height :=
    ((vrStep2_preserves fs u1).2.2.2.1).trans (vrStep1_preserves s).2.2.2.1
  have hlay2 : u2.layers = s.layers :=
    ((vrStep2_preserves fs u1).2.1).trans (vrStep1_preserves s).2.1
  have hScanvas : S.canvas_width = u3.canvas_width ∧ S.canvas_height = u3.canvas_height := by
    have h4w : u4.canvas_width = u3.canvas_width := (vrStep4_preserves now u3).2.2.1
    have h4h : u4.canvas_height = u3.canvas_height := (vrStep4_preserves now u3).2.2.2.1
    have h6w : u6.canvas_width = u5.canvas_width := (vrStep6_canvas fs u5).1
    have h6h : u6.canvas_height = u5.canvas_height := (vrStep6_canvas fs u5).2
    rcases validate_state_cases fs now s with h | h <;>
      rw [← hu1, ← hu2, ← hu3, ← hu4, ← hu5, ← hu6, ← hS] at h <;>
      rw [h] <;>
      exact ⟨by rw [show u6.canvas_width = u5.canvas_width from h6w, h54, h4w],
             by rw [show u6.canvas_height = u5.canvas_height from h6h, h54, h4h]⟩
  constructor
  · intro hpos
    have h3 : vrStep3 fs u2 = (u2, []) :=
      vrStep3_noop fs u2 (by rw [hcw2]; exact hpos.1) (by rw [hch2]; exact hpos.2)
    have h3w : u3.canvas_width = s.canvas_width := by rw [hu3, h3]; exact hcw2
    have h3h : u3.canvas_height = s.canvas_height := by rw [hu3, h3]; exact hch2
    exact ⟨hScanvas.1.trans h3w, hScanvas.2.trans h3h⟩
  · intro hnpos
    have hcond : u2.canvas_width ≤ 0 ∨ u2.canvas_height ≤ 0 := by
      rw [hcw2, hch2]; omega
    constructor
    · intro hnone
      have h3 : vrStep3 fs u2 = (u2, []) :=
        vrStep3_skip_none fs u2 hcond (by rw [hlay2]; exact hnone)
      have h3w : u3.canvas_width = s.canvas_width := by rw [hu3, h3]; exact hcw2
      have h3h : u3.canvas_height = s.canvas_height := by rw [hu3, h3]; exact hch2
      exact ⟨hScanvas.1.trans h3w, hScanvas.2.trans h3h⟩
    · intro first hfirst
      have hhead : u2.layers.head? = some first := by rw [hlay2]; exact hfirst
      constructor
      · intro hmiss
        have h3 : vrStep3 fs u2 = (u2, []) :=
          vrStep3_skip_missing fs u2 first hcond hhead hmiss
        have h3w : u3.canvas_width = s.canvas_width := by rw [hu3, h3]; exact hcw2
        have h3h : u3.canvas_height = s.canvas_height := by rw [hu3, h3]; exact hch2
        exact ⟨hScanvas.1.trans h3w, hScanvas.2.trans h3h⟩
      · intro hex
        constructor
        · intro info hinfo
          have h3 := vrStep3_infer fs u2 first info hcond hhead hex hinfo
          have h3w : u3.canvas_width = info.width := by rw [hu3, h3]
          have h3h : u3.canvas_height = info.height := by rw [hu3, h3]
          exact ⟨hScanvas.1.trans h3w, hScanvas.2.trans h3h⟩
        · intro e herr
          have h3 := vrStep3_warn fs u2 first e hcond hhead hex herr
          have h3w : u3.canvas_width = s.canvas_width := by rw [hu3, h3]; exact hcw2
          have h3h : u3.canvas_height = s.canvas_height := by rw [hu3, h3]; exact hch2
          refine ⟨⟨hScanvas.1.trans h3w, hScanvas.2.trans h3h⟩, ?_⟩
          have hrep := validate_repairs_eq fs now s
          rw [← hu1, ← hu2] at hrep
          rw [hrep, h3]
          simp

/-- All-succeeding filesystem whose image reads report an 800×600 bitmap. -/
def sampleFS3 : FS :=
  { pathExists := fun _ => true, readable := fun _ => true,
    imageInfo := fun _ => .ok { width := 800, height := 600 },
    isAbsolute := fun _ => false, relToProject := fun _ => none }

/-- Witness for the amended C4: zero canvas dimensions are repaired to the
first layer's 800×600 bitmap size. -/
theorem c4_canvas_after_repair_witness :
    (validate_and_repair_project_state sampleFS3 "t"
        { sampleState [sampleLayer "A" 0] [] (-1) with
          canvas_width := 0, canvas_height := 0 }).1.canvas_width = 800 ∧
    (validate_and_repair_project_state sampleFS3 "t"
        { sampleState [sampleLayer "A" 0] [] (-1) with
          canvas_width := 0, canvas_height := 0 }).1.canvas_height = 600 := by
  have h := ((c4_canvas_after_repair sampleFS3 "t"
    { sampleState [sampleLayer "A" 0] [] (-1) with
      canvas_width := 0, canvas_height := 0 }).2 (by decide)).2
    (sampleLayer "A" 0) (by decide)
  exact (h.2 (by decide)).1 { width := 800, height := 600 } rfl

/-! ## Operation application service input resolution
(`ProjectService.apply_color_replace_operation`, claim C3) -/

inductive ServiceInputError where
  | noLayers : ServiceInputError
  | opIndexOutOfRange (i : Int) : ServiceInputError
  | inputMissing (path : String) : ServiceInputError
deriving DecidableEq, Repr

/-- The input-resolution prefix of `apply_color_replace_operation`
(`services.py:254-271`): fail when the project has no layers; when
`active_op_index ≥ 0` take the record at the active index and use its
legacy `output_path` and its `input_layer_id`; otherwise use the base
(first) layer's stored bitmap path and id; fail when the chosen file does
not exist. Returns `(input path, input layer id)`. -/
def resolveServiceInput (fs : FS) (s : ProjectState) :
    Except ServiceInputError (String × String) :=
  match s.layers.head? with
  | none => .error .noLayers
  | some base =>
      if 0 ≤ s.active_op_index then
        match s.operations.get? s.active_op_index.toNat with
        | none => .error (.opIndexOutOfRange s.active_op_index)
        | some activeOp =>
            if fs.pathExists activeOp.output_path then
              .ok (activeOp.output_path, activeOp.input_layer_id)
            else .error (.inputMissing activeOp.output_path)
      else
        if fs.pathExists base.layer_path then .ok (base.layer_path, base.id)
        else .error (.inputMissing base.layer_path)

/-- The project of the C3 counterexample: one layer `L`, one operation on
`L` whose `output_layer_path` (`p2.png`) differs from its legacy
`output_path` (`p1.png`), active index 0. -/
def c3State : ProjectState :=
  sampleState [scenarioLayer] [sampleOp "O" "L" "p1.png" (some "p2.png")] 0

/-- C3 counterexample: the service resolves the operation input from the
active record's legacy `output_path`, while the compositor's resolution
rule prefers the record's `output_layer_path`; when the two fields
differ, the service does not use the same rule as the compositor. -/
theorem c3_service_input_counterexample :
    resolveServiceInput sampleFS2 c3State = .ok ("p1.png", "L") ∧
    resolveLayerBitmapPath c3State scenarioLayer = "p2.png" ∧
    ("p1.png" : String) ≠ "p2.png" := by
  refine ⟨rfl, by decide, by decide⟩

theorem take_getLast? (l : List α) (n : Nat) (a : α) (h : l.get? n = some a) :
    (l.take (n + 1)).getLast? = some a := by
  induction l generalizing n with
  | nil => simp at h
  | cons x xs ih =>
      cases n with
      | zero =>
          have hx : x = a := by simpa using h
          simp [hx]
      | succ m =>
          have htail := ih m (by simpa using h)
          rw [List.take_succ_cons]
          cases hxs : xs.take (m + 1) with
          | nil => rw [hxs] at htail; simp at htail
          | cons y ys =>
              rw [hxs] at htail
              rw [List.getLast?_cons_cons]
              exact htail

theorem filter_getLast? (P : α → Bool) (l : List α) (a : α)
    (hl : l.getLast? = some a) (ha : P a = true) :
    (l.filter P).getLast? = some a := by
  induction l with
  | nil => simp at hl
  | cons x xs ih =>
      by_cases hxs : xs = []
      · subst hxs
        have hx : x = a := by simpa using hl
        subst hx
        simp [List.filter_cons_of_pos ha]
      · obtain ⟨y, ys, hxs'⟩ := List.exists_cons_of_ne_nil hxs
        have hl' : xs.getLast? = some a := by
          rw [hxs'] at hl ⊢
          rw [List.getLast?_cons_cons] at hl
          exact hl
        have htail := ih hl'
        by_cases hPx : P x
        · rw [List.filter_cons_of_pos hPx]
          cases hf : xs.filter P with
          | nil => rw [hf] at htail; simp at htail
          | cons z zs =>
              rw [hf] at htail
              rw [List.getLast?_cons_cons]
              exact htail
        · rw [List.filter_cons_of_neg hPx]
          exact htail

/-- C3 amended: the service input agrees with the compositor's resolution
rule only in the compatible cases. With `active_op_index = -1` the service
uses the base layer's stored bitmap, which is exactly the compositor's
resolution for the base layer. With `active_op_index ≥ 0` the service
uses the active record's legacy `output_path` and that record's input
layer as the target; since the active record is the last matching record
for its own input layer, this is the compositor's resolution for the
target layer precisely when the record's `output_layer_path` is unset or
equal to its `output_path` (and the path is non-empty) — otherwise the
two rules differ (see the counterexample). -/
theorem c3_service_input_amended (fs : FS) (s : ProjectState) :
    (∀ base, s.layers.head? = some base → s.active_op_index < 0 →
       fs.pathExists base.layer_path = true →
       resolveServiceInput fs s = .ok (resolveLayerBitmapPath s base, base.id)) ∧
    (∀ base activeOp, s.layers.head? = some base → 0 ≤ s.active_op_index →
       s.operations.get? s.active_op_index.toNat = some activeOp →
       fs.pathExists activeOp.output_path = true →
       resolveServiceInput fs s = .ok (activeOp.output_path, activeOp.input_layer_id) ∧
       ((activeOp.output_layer_path = none ∨
           activeOp.output_layer_path = some activeOp.output_path) →
        activeOp.output_path ≠ "" →
        ∀ layer : Layer, layer.id = activeOp.input_layer_id →
          resolveLayerBitmapPath s layer = activeOp.output_path)) := by
  constructor
  · intro base hbase hneg hex
    have hres : resolveLayerBitmapPath s base = base.layer_path := by
      unfold resolveLayerBitmapPath latestOpOutput
      have h0 : (s.active_op_index + 1).toNat = 0 := by omega
      rw [h0]
      simp
    rw [hres]
    unfold resolveServiceInput
    rw [hbase]
    have hneg' : ¬ 0 ≤ s.active_op_index := by omega
    simp [hneg', hex]
  · intro base activeOp hbase hpos hget hex
    constructor
    · unfold resolveServiceInput
      rw [hbase]
      have hget' : s.operations[s.active_op_index.toNat]? = some activeOp := by
        rw [← List.get?_eq_getElem?]
        exact hget
      simp [hpos, hget', hex]
    · intro holp hne layer hid
      have hout : opOutputOf activeOp = activeOp.output_path := by
        unfold opOutputOf
        rcases holp with h | h
        · rw [h]
        · rw [h]
          show (if activeOp.output_path = "" then activeOp.output_path
                else activeOp.output_path) = activeOp.output_path
          split_ifs <;> rfl
      have hlast : lastMatchingOp s layer.id = some activeOp := by
        unfold lastMatchingOp
        have hb : (s.active_op_index + 1).toNat = s.active_op_index.toNat + 1 := by omega
        rw [hb]
        exact filter_getLast? _ _ _
          (take_getLast? s.operations s.active_op_index.toNat activeOp hget)
          (by simp [inputMatches, hid])
      have := (c9_layer_bitmap_resolution s layer).2.1 activeOp hlast
        (by rw [hout]; exact hne)
      rw [this, hout]

/-- The project of the amended-C3 witness: one layer `L`, one operation on
`L` with no `output_layer_path`, active index 0. -/
def c3WitnessState : ProjectState :=
  sampleState [scenarioLayer] [sampleOp "O" "L" "out.png" none] 0

/-- Witness for the amended C3: with `output_layer_path` unset the service
input equals the compositor's resolution for the target layer. -/
theorem c3_service_input_amended_witness :
    resolveServiceInput sampleFS2 c3WitnessState = .ok ("out.png", "L") ∧
    resolveLayerBitmapPath c3WitnessState scenarioLayer = "out.png" := by
  have h := (c3_service_input_amended sampleFS2 c3WitnessState).2 scenarioLayer
    (sampleOp "O" "L" "out.png" none) (by decide) (by decide) (by decide) (by decide)
  exact ⟨h.1, h.2 (Or.inl rfl) (by decide) scenarioLayer (by decide)⟩

end TCS
